import Mathlib

/-!
# VolleyController: control registry and file-transfer service

A shallow embedding of `scorecontroller.cpp` (the control-channel registry of
`ScoreController`) and `fileserver.cpp` (the chunked file-transfer service
`FileServer`), followed by the properties proved about them.

Sockets are values carrying their object identity, their peer address and the
result of `isValid()`.  Every call made on a socket (`disconnect`, `close`,
`abort`, `delete`, `sendTextMessage`, `sendBinaryMessage`) is appended to a
trace kept in the state, so that what was sent, to whom and in which order can
be stated.  Log output and widget updates are not part of the state.
-/

namespace VolleyController

/-! ## Qt value types -/

/-- A `QHostAddress`: either an address that has an IPv4 form, or any other
address (for which `toIPv4Address()` yields 0). -/
inductive QHostAddress where
  | ipv4 (a : Nat)
  | other (a : Nat)
  deriving DecidableEq, Repr

/-- The value of `QHostAddress::toIPv4Address()`. -/
def QHostAddress.toIPv4Address : QHostAddress → Nat
  | .ipv4 a => a
  | .other _ => 0

/-- A `QWebSocket` object: `id` stands for the pointer, `isValid` for the
result of `isValid()`. -/
structure QWebSocket where
  id : Nat
  peerAddress : QHostAddress
  isValid : Bool
  deriving DecidableEq, Repr

/-- A `QByteArray`: a list of byte values. -/
abbrev QByteArray := List Nat

/-- Calls made on sockets, in the order in which they are made. -/
inductive Effect where
  | disconnect (s : QWebSocket)
  | close (s : QWebSocket)
  | abort (s : QWebSocket)
  | delete (s : QWebSocket)
  | sendTextMessage (s : QWebSocket) (sMessage : String)
  | sendBinaryMessage (s : QWebSocket) (ba : QByteArray)
  | writeDatagram (hostAddress : QHostAddress) (port : Nat) (datagram : QByteArray)
  deriving DecidableEq, Repr

/-! ## ScoreController: the control registry -/

/-- The display mode `myStatus`. -/
inductive Status where
  | showPanel
  | showSpots
  | showSlides
  | showCamera
  deriving DecidableEq, Repr

/-- An entry of `connectionList`. -/
structure Connection where
  pClientSocket : QWebSocket
  deriving DecidableEq, Repr

/-- The comparison by which the registry recognises the entries of an address:
equal `toIPv4Address()` values. -/
def Connection.isFor (c : Connection) (hAddress : QHostAddress) : Bool :=
  c.pClientSocket.peerAddress.toIPv4Address = hAddress.toIPv4Address

/-- The part of `ScoreController` the control channel works on. -/
structure ScoreController where
  connectionList : List Connection
  myStatus : Status
  sIpAddresses : List String
  trace : List Effect
  deriving DecidableEq, Repr

namespace ScoreController

/-- What `RemoveClient` does to a socket it evicts: `disconnect()`, `close()`
when the socket is valid, `delete`. -/
def evict (pClient : QWebSocket) : List Effect :=
  [Effect.disconnect pClient] ++
    (if pClient.isValid then [Effect.close pClient] else []) ++
    [Effect.delete pClient]

/-- The loop of `RemoveClient`: `n` is `i + 1`, the indices `n - 1, ..., 0`
remain to be visited. -/
def RemoveClient.loop (hAddress : QHostAddress) : Nat → ScoreController → ScoreController
  | 0, s => s
  | i + 1, s =>
    match s.connectionList[i]? with
    | none => RemoveClient.loop hAddress i s
    | some c =>
      let pClient := c.pClientSocket
      if pClient.peerAddress.toIPv4Address = hAddress.toIPv4Address then
        RemoveClient.loop hAddress i
          { s with
            connectionList := s.connectionList.eraseIdx i
            trace := s.trace ++ evict pClient }
      else
        RemoveClient.loop hAddress i s

/-- Method `ScoreController::RemoveClient`: scan `connectionList` from the last index
down to 0 and evict every entry whose IPv4 address equals that of `hAddress`. -/
def RemoveClient (s : ScoreController) (hAddress : QHostAddress) : ScoreController :=
  RemoveClient.loop hAddress s.connectionList.length s

/-- Method `ScoreController::UpdateUI`, reduced to its effect on `myStatus`: with an
empty `connectionList` the mode goes back to `showPanel`. -/
def UpdateUI (s : ScoreController) : ScoreController :=
  if s.connectionList.length = 1 then s
  else if s.connectionList.length = 0 then { s with myStatus := Status.showPanel }
  else s

/-- Slot `ScoreController::onNewConnection`: evict the entries of the peer
address, append the new connection, refresh the mode. -/
def onNewConnection (s : ScoreController) (pClient : QWebSocket) : ScoreController :=
  let address := pClient.peerAddress
  let s1 := RemoveClient s address
  let newConnection : Connection := ⟨pClient⟩
  let s2 := { s1 with connectionList := s1.connectionList ++ [newConnection] }
  UpdateUI s2

/-- Slot `ScoreController::onClientDisconnected`, `pClient` being the sender. -/
def onClientDisconnected (s : ScoreController) (pClient : QWebSocket) : ScoreController :=
  UpdateUI (RemoveClient s pClient.peerAddress)

/-- The search loop of `SendToOne` on a valid socket: the entries are visited
from index 0; at the first one whose IPv4 address equals that of `pClient` the
text is written to `pClient` and the loop is left. -/
def SendToOne.loop (pClient : QWebSocket) (sMessage : String) : List Connection → List Effect
  | [] => []
  | c :: rest =>
    let pConnected := c.pClientSocket
    if pConnected.peerAddress.toIPv4Address = pClient.peerAddress.toIPv4Address then
      [Effect.sendTextMessage pClient sMessage]
    else
      SendToOne.loop pClient sMessage rest

/-- Method `ScoreController::SendToOne`: a valid socket is written to when the
registry holds an entry for its address; an invalid one is evicted with
`RemoveClient`, followed by `UpdateUI`. -/
def SendToOne (s : ScoreController) (pClient : QWebSocket) (sMessage : String) :
    ScoreController :=
  if pClient.isValid then
    { s with trace := s.trace ++ SendToOne.loop pClient sMessage s.connectionList }
  else
    UpdateUI (RemoveClient s pClient.peerAddress)

/-- The loop of `SendToAll`: `i` is the loop index, tested against the current
length of `connectionList` on every round.  `fuel` bounds the number of rounds;
`SendToAll` starts it with the length of the list, which is never exceeded
(`SendToAll_loop_fuel`). -/
def SendToAll.loop (sMessage : String) : Nat → Nat → ScoreController → ScoreController
  | 0, _, s => s
  | fuel + 1, i, s =>
    match s.connectionList[i]? with
    | none => s
    | some c => SendToAll.loop sMessage fuel (i + 1) (SendToOne s c.pClientSocket sMessage)

/-- Method `ScoreController::SendToAll`: `SendToOne` on `connectionList.at(i)` for
`i = 0, 1, ...` while `i < connectionList.count()`. -/
def SendToAll (s : ScoreController) (sMessage : String) : ScoreController :=
  SendToAll.loop sMessage s.connectionList.length 0 s

/-- Slot `ScoreController::onButtonStartStopSpotLoopClicked`, without the
widget updates. -/
def onButtonStartStopSpotLoopClicked (s : ScoreController) : ScoreController :=
  if s.connectionList.length = 0 then
    { s with myStatus := Status.showPanel }
  else if s.myStatus = Status.showPanel then
    let s1 := SendToAll s "<spotloop>1</spotloop>"
    { s1 with myStatus := Status.showSpots }
  else
    let s1 := SendToAll s "<endspotloop>1</endspotloop>"
    { s1 with myStatus := Status.showPanel }

/-- Slot `ScoreController::onButtonStartStopLiveCameraClicked`, without the
widget updates. -/
def onButtonStartStopLiveCameraClicked (s : ScoreController) : ScoreController :=
  if s.connectionList.length = 0 then
    { s with myStatus := Status.showPanel }
  else if s.myStatus = Status.showPanel then
    let s1 := SendToAll s "<live>1</live>"
    { s1 with myStatus := Status.showCamera }
  else
    let s1 := SendToAll s "<endlive>1</endlive>"
    { s1 with myStatus := Status.showPanel }

/-- Slot `ScoreController::onButtonStartStopSlideShowClicked`, without the
widget updates. -/
def onButtonStartStopSlideShowClicked (s : ScoreController) : ScoreController :=
  if s.connectionList.length = 0 then
    { s with myStatus := Status.showPanel }
  else if s.myStatus = Status.showPanel then
    let s1 := SendToAll s "<slideshow>1</slideshow>"
    { s1 with myStatus := Status.showSlides }
  else
    let s1 := SendToAll s "<endslideshow>1</endslideshow>"
    { s1 with myStatus := Status.showPanel }

/-- The loop of `onStartCamera` over the entries from index `i` on: at the first
entry of the address the two texts are sent and the slot returns; every entry
passed before sets `myStatus` to `showCamera`. -/
def onStartCamera.loop (hostAddress : QHostAddress) : List Connection → ScoreController →
    ScoreController
  | [], s => s
  | c :: rest, s =>
    let pClient := c.pClientSocket
    if pClient.peerAddress.toIPv4Address = hostAddress.toIPv4Address then
      SendToOne (SendToOne s pClient "<live>1</live>") pClient "<getPanTilt>1</getPanTilt>"
    else
      onStartCamera.loop hostAddress rest { s with myStatus := Status.showCamera }

/-- Slot `ScoreController::onStartCamera`, `hostAddress` being the address built
from `sClientIp`. -/
def onStartCamera (s : ScoreController) (hostAddress : QHostAddress) : ScoreController :=
  onStartCamera.loop hostAddress s.connectionList s

/-- Slot `ScoreController::onStopCamera`. -/
def onStopCamera (s : ScoreController) : ScoreController :=
  let s1 := SendToAll s "<endlive>1</endlive>"
  { s1 with myStatus := Status.showPanel }

/-- The state left by the constructor: no connection, `myStatus = showPanel`. -/
def initial : ScoreController :=
  { connectionList := [], myStatus := Status.showPanel, sIpAddresses := [], trace := [] }

end ScoreController

/-! ## Qt string helpers used by FileServer -/

/-- The pieces of `cs` between occurrences of `sep`, empty pieces kept; `cur`
holds the characters of the current piece, last one first. -/
def splitAux (sep : Char) : List Char → List Char → List String
  | [], cur => [String.mk cur.reverse]
  | c :: cs, cur =>
    if c = sep then String.mk cur.reverse :: splitAux sep cs []
    else splitAux sep cs (c :: cur)

/-- Qt `QString::split(sep)` for a one-character separator (empty parts are kept,
so the result is never empty). -/
def split (s : String) (sep : Char) : List String :=
  splitAux sep s.data []

/-- White space skipped by `QString::toInt` at both ends of the text. -/
def isSpace (c : Char) : Bool :=
  c = ' ' || c.toNat = 9 || c.toNat = 10 || c.toNat = 11 || c.toNat = 12 || c.toNat = 13

/-- The value of a non-empty run of decimal digits. -/
def parseDigits (cs : List Char) : Option Nat :=
  if cs ≠ [] ∧ cs.all Char.isDigit then
    some (cs.foldl (fun acc c => 10 * acc + (c.toNat - 48)) 0)
  else
    none

/-- Qt `QString::toInt()`: surrounding white space and one sign are accepted, the
value has to fit a signed 32-bit `int`; 0 when the conversion fails. -/
def toInt (s : String) : Int :=
  let cs := ((s.data.dropWhile isSpace).reverse.dropWhile isSpace).reverse
  match cs with
  | '-' :: ds =>
    match parseDigits ds with
    | some n => if n ≤ 2 ^ 31 then - (n : Int) else 0
    | none => 0
  | '+' :: ds =>
    match parseDigits ds with
    | some n => if n < 2 ^ 31 then (n : Int) else 0
    | none => 0
  | ds =>
    match parseDigits ds with
    | some n => if n < 2 ^ 31 then (n : Int) else 0
    | none => 0

/-- UTF-8 bytes of one code point. -/
def utf8Encode (c : Nat) : QByteArray :=
  if c < 0x80 then [c]
  else if c < 0x800 then [0xC0 + c / 64, 0x80 + c % 64]
  else if c < 0x10000 then [0xE0 + c / 4096, 0x80 + c / 64 % 64, 0x80 + c % 64]
  else [0xF0 + c / 262144, 0x80 + c / 4096 % 64, 0x80 + c / 64 % 64, 0x80 + c % 64]

/-- Qt `QString::toLocal8Bit()` under a UTF-8 locale. -/
def toLocal8Bit (s : String) : QByteArray :=
  (s.data.map (fun c => utf8Encode c.toNat)).flatten

/-- The text following the first occurrence of `pat`, if `pat` occurs. -/
def afterFirst (pat : List Char) : List Char → Option (List Char)
  | [] => if pat = [] then some [] else none
  | c :: cs =>
    if pat.isPrefixOf (c :: cs) then some ((c :: cs).drop pat.length)
    else afterFirst pat cs

/-- The text preceding the first occurrence of `pat`, if `pat` occurs. -/
def beforeFirst (pat : List Char) : List Char → Option (List Char)
  | [] => if pat = [] then some [] else none
  | c :: cs =>
    if pat.isPrefixOf (c :: cs) then some []
    else (beforeFirst pat cs).map (fun r => c :: r)

/-- The sentinel `sNoData` returned by `XML_Parse` when the tag is absent. -/
def sNoData : String := "NoData"

/-- Modelled from the spec: `XML_Parse` is declared in `utility.h`, which is
not among the sources.  The protocol frames a value as `<tag>value</tag>`; the
call returns the value between the first `<tag>` and the next `</tag>`, and the
"tag not present" sentinel `NoData` when either is missing. -/
def XML_Parse (input_string : String) (token : String) : String :=
  match afterFirst ("<" ++ token ++ ">").data input_string.data with
  | none => sNoData
  | some rest =>
    match beforeFirst ("</" ++ token ++ ">").data rest with
    | none => sNoData
    | some value => String.mk value

/-! ## FileServer -/

/-- An entry of `fileList`: what the code reads from a `QFileInfo`. -/
structure QFileInfo where
  fileName : String
  size : Nat
  deriving DecidableEq, Repr

/-- What is found at a path of the file system: the bytes of the file and
whether `open(QIODevice::ReadOnly)` succeeds on it. -/
structure QFile where
  content : QByteArray
  canOpen : Bool
  deriving DecidableEq, Repr

/-- The file system: `none` where `QFile::exists()` is false. -/
abbrev FileSystem := String → Option QFile

/-- The members of `FileServer` the handlers work on, and the trace of socket
calls. -/
structure FileServer where
  sFileDir : String
  fileList : List QFileInfo
  connections : List QWebSocket
  trace : List Effect
  deriving DecidableEq, Repr

namespace FileServer

/-- Method `FileServer::SendToOne`: the text is written only to a valid socket. -/
def SendToOne (srv : FileServer) (pClient : QWebSocket) (sMessage : String) : FileServer :=
  if pClient.isValid then
    { srv with trace := srv.trace ++ [Effect.sendTextMessage pClient sMessage] }
  else
    srv

/-- The text built for a non-empty `fileList`: every entry but the last is
followed by a comma, the last by the closing tag. -/
def fileListMessage (fileList : List QFileInfo) : String :=
  match fileList.getLast? with
  | none => "<file_list>"
  | some last =>
    let sMessage := fileList.dropLast.foldl
      (fun acc f => acc ++ f.fileName ++ (";" ++ toString f.size ++ ",")) "<file_list>"
    sMessage ++ last.fileName ++ (";" ++ toString last.size ++ "</file_list>")

/-- The `send_file_list` part of `FileServer::onProcessTextMessage` (from the
second `XML_Parse` on), run on the current value of `sMessage`. -/
def onProcessTextMessage.sendFileList (srv : FileServer) (pClient : QWebSocket)
    (sMessage : String) : FileServer :=
  let sToken := XML_Parse sMessage "send_file_list"
  if sToken ≠ sNoData then
    if srv.fileList.isEmpty then
      SendToOne srv pClient "<file_list>0/file_list>"
    else if pClient.isValid then
      SendToOne srv pClient (fileListMessage srv.fileList)
    else
      srv
  else
    srv

/-- The preamble written into `ba` when `startPos == 0`: file name, `,size`,
then `1024 - ba.length()` NUL characters (none when that count is not
positive). -/
def preamble (sFileName : String) (filesize : Nat) : QByteArray :=
  let ba := toLocal8Bit sFileName ++ toLocal8Bit ("," ++ toString filesize)
  ba ++ List.replicate (1024 - ba.length) 0

/-- Result of `file.read(length)` after a successful `seek(startPos)`: at most `length`
bytes from offset `startPos`; nothing for a negative `length`. -/
def readAt (file : QFile) (startPos length : Int) : QByteArray :=
  (file.content.drop startPos.toNat).take length.toNat

/-- Slot `FileServer::onProcessTextMessage`, `pClient` being the sender. -/
def onProcessTextMessage (fs : FileSystem) (srv : FileServer) (pClient : QWebSocket)
    (sMessage : String) : FileServer :=
  let sToken := XML_Parse sMessage "get"
  if sToken ≠ sNoData then
    let argumentList := split sToken ','
    if argumentList.length < 3 then
      srv
    else
      let sFileName := argumentList.getD 0 ""
      let startPos := toInt (argumentList.getD 1 "")
      let length := toInt (argumentList.getD 2 "")
      let sFilePath := srv.sFileDir ++ sFileName
      match fs sFilePath with
      | some file =>
        let filesize : Int := file.content.length
        if filesize ≤ startPos then
          srv
        else
          let ba : QByteArray :=
            if startPos = 0 then preamble sFileName file.content.length else []
          if file.canOpen then
            if 0 ≤ startPos then
              let ba := ba ++ readAt file startPos length
              if ba.length = 1024 then
                srv
              else if pClient.isValid then
                { srv with trace := srv.trace ++ [Effect.sendBinaryMessage pClient ba] }
              else
                srv
            else
              srv
          else
            srv
      | none =>
        let sMessage := "<missingFile>" ++ sToken ++ "</missingFile>"
        let srv1 :=
          if pClient.isValid then
            { srv with trace := srv.trace ++ [Effect.sendTextMessage pClient sMessage] }
          else
            srv
        onProcessTextMessage.sendFileList srv1 pClient sMessage
  else
    onProcessTextMessage.sendFileList srv pClient sMessage

/-- Result of the duplicate scan of `onNewConnection`. -/
inductive Scan where
  | proceed (srv : FileServer)
  | returned (srv : FileServer)
  deriving DecidableEq, Repr

/-- The duplicate scan of `FileServer::onNewConnection`: `n` is `i + 1`, the
indices `n - 1, ..., 0` remain to be visited.  `proceed` stands for leaving
the loop (by `break` or at its end), `returned` for the `return` inside it. -/
def onNewConnection.loop (pClient : QWebSocket) : Nat → FileServer → Scan
  | 0, srv => Scan.proceed srv
  | i + 1, srv =>
    match srv.connections[i]? with
    | none => onNewConnection.loop pClient i srv
    | some ci =>
      if ci.peerAddress = pClient.peerAddress then
        if ci.isValid && pClient.isValid then
          Scan.proceed
            { srv with
              connections := srv.connections.eraseIdx i
              trace := srv.trace ++ [Effect.disconnect ci, Effect.abort ci, Effect.delete ci] }
        else if pClient.isValid then
          Scan.proceed
            { srv with
              connections := srv.connections.eraseIdx i
              trace := srv.trace ++ [Effect.disconnect ci, Effect.abort ci, Effect.delete ci] }
        else
          Scan.returned
            { srv with
              trace := srv.trace ++
                [Effect.disconnect pClient, Effect.close pClient, Effect.delete pClient] }
      else
        onNewConnection.loop pClient i srv

/-- Slot `FileServer::onNewConnection`: the duplicate scan, then (unless the
scan returned) the new connection is appended. -/
def onNewConnection (srv : FileServer) (pClient : QWebSocket) : FileServer :=
  let nConnections := srv.connections.length
  match onNewConnection.loop pClient nConnections srv with
  | Scan.returned srv1 => srv1
  | Scan.proceed srv1 => { srv1 with connections := srv1.connections ++ [pClient] }

/-- Slot `FileServer::onClientSocketError`, `pClient` being the sender. -/
def onClientSocketError (srv : FileServer) (pClient : QWebSocket) : FileServer :=
  { srv with
    connections := srv.connections.erase pClient
    trace := srv.trace ++
      [Effect.disconnect pClient, Effect.abort pClient, Effect.delete pClient] }

/-- Slot `FileServer::onClientDisconnected`, `pClient` being the sender. -/
def onClientDisconnected (srv : FileServer) (pClient : QWebSocket) : FileServer :=
  { srv with connections := srv.connections.erase pClient }

/-- At most one connection per peer address. -/
def AtMostOnePerAddress (connections : List QWebSocket) : Prop :=
  (connections.map QWebSocket.peerAddress).Nodup

instance (connections : List QWebSocket) : Decidable (AtMostOnePerAddress connections) :=
  inferInstanceAs (Decidable (connections.map QWebSocket.peerAddress).Nodup)

end FileServer

/-- What the code asks of a `QDir` built on a path: whether the directory
exists, and its `entryInfoList()` once the name filters and the `Files` filter
are set. -/
structure QDir where
  dirExists : Bool
  entryInfoList : List String → List QFileInfo

namespace FileServer

/-- Method `FileServer::setDir`: the path gets a final `/`; the catalog is
replaced only when the directory exists; the result is always `true`. -/
def setDir (dirs : String → QDir) (srv : FileServer) (sDirectory sExtensions : String) :
    Bool × FileServer :=
  let sFileDir :=
    if "/".data.isSuffixOf sDirectory.data then sDirectory else sDirectory ++ "/"
  let sDir := dirs sFileDir
  let srv1 := { srv with sFileDir := sFileDir }
  if sDir.dirExists then
    let nameFilter := split sExtensions ' '
    (true, { srv1 with fileList := sDir.entryInfoList nameFilter })
  else
    (true, srv1)

end FileServer

/-! ## ScoreController: discovery and inbound commands -/

/-- Qt `QString::toUtf8()`. -/
def toUtf8 (s : String) : QByteArray :=
  (s.data.map (fun c => utf8Encode c.toNat)).flatten

/-- An address entry of a network interface, with the outcome of the `bind()`
that `prepareDiscovery` attempts for it. -/
structure QNetworkAddressEntry where
  ip : String
  isIPv4 : Bool
  bindSucceeds : Bool
  deriving DecidableEq, Repr

/-- A `QNetworkInterface`: the four flags tested and the address entries. -/
structure QNetworkInterface where
  isUp : Bool
  isRunning : Bool
  canMulticast : Bool
  isLoopBack : Bool
  addressEntries : List QNetworkAddressEntry
  deriving DecidableEq, Repr

/-- A pending datagram of a discovery socket: its payload (as text) and where
it came from. -/
structure Datagram where
  data : String
  sender : QHostAddress
  senderPort : Nat
  deriving DecidableEq, Repr

/-- The text seen through `const char*`: what precedes the first NUL. -/
def cString (s : String) : String :=
  String.mk (s.data.takeWhile (fun c => c.toNat ≠ 0))

/-- What `onProcessTextMessage` does with a `pan_tilt` tag. -/
inductive PanTilt where
  | skipped
  | remotePanTiltReceived (pan tilt : Int)
  | indexOutOfRange
  deriving DecidableEq, Repr

namespace ScoreController

/-- The inner loop of `prepareDiscovery` over the address entries of one
interface; the pair is `bSuccess` and `sIpAddresses`. -/
def prepareDiscovery.entries : List QNetworkAddressEntry → Bool × List String →
    Bool × List String
  | [], acc => acc
  | e :: rest, (bSuccess, sIpAddresses) =>
    if e.isIPv4 then
      if e.bindSucceeds then
        prepareDiscovery.entries rest (true, sIpAddresses ++ [e.ip])
      else
        prepareDiscovery.entries rest (bSuccess, sIpAddresses)
    else
      prepareDiscovery.entries rest (bSuccess, sIpAddresses)

/-- The outer loop of `prepareDiscovery` over the interfaces. -/
def prepareDiscovery.interfaces : List QNetworkInterface → Bool × List String →
    Bool × List String
  | [], acc => acc
  | interface :: rest, acc =>
    if interface.isUp && interface.isRunning && interface.canMulticast &&
        !interface.isLoopBack then
      prepareDiscovery.interfaces rest (prepareDiscovery.entries interface.addressEntries acc)
    else
      prepareDiscovery.interfaces rest acc

/-- Method `ScoreController::prepareDiscovery`, `interfaceList` being
`QNetworkInterface::allInterfaces()`: returns `bSuccess` and the state with the
new `sIpAddresses`. -/
def prepareDiscovery (s : ScoreController) (interfaceList : List QNetworkInterface) :
    Bool × ScoreController :=
  let r := prepareDiscovery.interfaces interfaceList (false, [])
  (r.1, { s with sIpAddresses := r.2 })

/-- Method `ScoreController::sendAcceptConnection`; `none` when
`sIpAddresses.at(0)` is out of range. -/
def sendAcceptConnection (s : ScoreController) (hostAddress : QHostAddress) (port : Nat) :
    Option ScoreController :=
  match s.sIpAddresses with
  | [] => none
  | ip0 :: rest =>
    let sString := rest.foldl (fun acc ip => acc ++ (";" ++ ip ++ ",0")) (ip0 ++ ",0")
    let sMessage := "<serverIP>" ++ sString ++ "</serverIP>"
    some { s with trace := s.trace ++ [Effect.writeDatagram hostAddress port (toUtf8 sMessage)] }

/-- The `while(hasPendingDatagrams())` loop of `onProcessConnectionRequest`:
the payloads are appended to `request`, `hostAddress` and `port` are those of
the datagram read last. -/
def onProcessConnectionRequest.drain : List Datagram → String × QHostAddress × Nat →
    String × QHostAddress × Nat
  | [], acc => acc
  | d :: rest, (request, _, _) =>
    onProcessConnectionRequest.drain rest (request ++ cString d.data, d.sender, d.senderPort)

/-- Slot `ScoreController::onProcessConnectionRequest`, `pending` being the
datagrams waiting on the socket; `hostAddress` starts as a null address. -/
def onProcessConnectionRequest (s : ScoreController) (pending : List Datagram) :
    Option ScoreController :=
  let r := onProcessConnectionRequest.drain pending ("", QHostAddress.other 0, 0)
  let request := r.1
  let hostAddress := r.2.1
  let port := r.2.2
  let sToken := XML_Parse (cString request) "getServer"
  if sToken ≠ sNoData then
    match sendAcceptConnection s hostAddress port with
    | none => none
    | some s1 => some (UpdateUI (RemoveClient s1 hostAddress))
  else
    some s

/-- The `pan_tilt` part of `ScoreController::onProcessTextMessage`;
`pClientListDialog` tells whether the dialog is present. -/
def onProcessTextMessage.panTilt (pClientListDialog : Bool) (sMessage : String) : PanTilt :=
  let sToken := XML_Parse sMessage "pan_tilt"
  if sToken ≠ sNoData then
    let values := (split sToken ',').filter (fun v => v ≠ "")
    if pClientListDialog then
      match values[0]?, values[1]? with
      | some v0, some v1 => PanTilt.remotePanTiltReceived (toInt v0) (toInt v1)
      | _, _ => PanTilt.indexOutOfRange
    else
      PanTilt.skipped
  else
    PanTilt.skipped

end ScoreController

/-! ## Properties of the control registry -/

namespace ScoreController

theorem UpdateUI_connectionList (s : ScoreController) :
    (UpdateUI s).connectionList = s.connectionList := by
  unfold UpdateUI
  split_ifs <;> rfl

theorem UpdateUI_trace (s : ScoreController) : (UpdateUI s).trace = s.trace := by
  unfold UpdateUI
  split_ifs <;> rfl

/-- After the indices below `i` have been visited, the entries below `i` that
match `hAddress` are gone, all others are in place, and the evicted sockets
have been disconnected, closed and deleted from the highest index down. -/
theorem RemoveClient_loop_spec (hAddress : QHostAddress) :
    ∀ (i : Nat) (s : ScoreController), i ≤ s.connectionList.length →
      (RemoveClient.loop hAddress i s).connectionList =
          (s.connectionList.take i).filter (fun c => !c.isFor hAddress)
          ++ s.connectionList.drop i ∧
      (RemoveClient.loop hAddress i s).trace =
          s.trace ++ (((s.connectionList.take i).filter
            (fun c => c.isFor hAddress)).reverse.map
              (fun c => evict c.pClientSocket)).flatten ∧
      (RemoveClient.loop hAddress i s).myStatus = s.myStatus ∧
      (RemoveClient.loop hAddress i s).sIpAddresses = s.sIpAddresses := by
  intro i
  induction i with
  | zero => intro s _; simp [RemoveClient.loop]
  | succ i ih =>
    intro s hi
    have hlt : i < s.connectionList.length := hi
    have hget : s.connectionList[i]? = some s.connectionList[i] := List.getElem?_eq_getElem hlt
    have htake : s.connectionList.take (i + 1) = s.connectionList.take i ++ [s.connectionList[i]] := by
      rw [List.take_succ, hget]; rfl
    have hdrop : s.connectionList.drop i = s.connectionList[i] :: s.connectionList.drop (i + 1) :=
      List.drop_eq_getElem_cons hlt
    rw [RemoveClient.loop, hget]
    by_cases hm : s.connectionList[i].pClientSocket.peerAddress.toIPv4Address = hAddress.toIPv4Address
    · simp only [hm, if_true]
      have herase : s.connectionList.eraseIdx i = s.connectionList.take i ++ s.connectionList.drop (i + 1) :=
        List.eraseIdx_eq_take_drop_succ _ _
      have hlen : (s.connectionList.take i).length = i := List.length_take_of_le (Nat.le_of_lt hlt)
      obtain ⟨h1a, h1b, h1c, h1d⟩ :=
        ih { s with connectionList := s.connectionList.eraseIdx i,
                    trace := s.trace ++ evict s.connectionList[i].pClientSocket }
          (by simp [List.length_eraseIdx, hlt]; omega)
      have ht : (s.connectionList.eraseIdx i).take i = s.connectionList.take i := by
        rw [herase, List.take_append_of_le_length (by omega), List.take_of_length_le (by omega)]
      have hd : (s.connectionList.eraseIdx i).drop i = s.connectionList.drop (i + 1) := by
        rw [herase, List.drop_append_of_le_length (by omega), List.drop_of_length_le (by omega)]
        simp
      refine ⟨?_, ?_, h1c, h1d⟩
      · rw [h1a]; simp only [ht, hd, htake, List.filter_append]
        simp [Connection.isFor, hm]
      · rw [h1b]; simp only [ht, htake, List.filter_append]
        simp [Connection.isFor, hm, List.append_assoc]
    · simp only [hm, if_false]
      obtain ⟨h1a, h1b, h1c, h1d⟩ := ih s (Nat.le_of_lt hlt)
      refine ⟨?_, ?_, h1c, h1d⟩
      · rw [h1a, htake, hdrop, List.filter_append]
        simp [Connection.isFor, hm]
      · rw [h1b, htake, List.filter_append]
        simp [Connection.isFor, hm]

/-- The registry after `RemoveClient`: the entries not matching `hAddress`, in
their original order. -/
theorem RemoveClient_connectionList (s : ScoreController) (hAddress : QHostAddress) :
    (RemoveClient s hAddress).connectionList =
      s.connectionList.filter (fun c => !c.isFor hAddress) := by
  have h := (RemoveClient_loop_spec hAddress s.connectionList.length s (Nat.le_refl _)).1
  simpa [RemoveClient] using h

/-- The socket calls made by `RemoveClient`. -/
theorem RemoveClient_trace (s : ScoreController) (hAddress : QHostAddress) :
    (RemoveClient s hAddress).trace =
      s.trace ++ (((s.connectionList.filter (fun c => c.isFor hAddress)).reverse.map
        (fun c => evict c.pClientSocket)).flatten) := by
  have h := (RemoveClient_loop_spec hAddress s.connectionList.length s (Nat.le_refl _)).2.1
  simpa [RemoveClient] using h

/-- With no matching entry the loop returns the state it was given. -/
theorem RemoveClient_loop_of_absent (hAddress : QHostAddress) :
    ∀ (i : Nat) (s : ScoreController),
      (∀ c ∈ s.connectionList, c.isFor hAddress = false) →
      RemoveClient.loop hAddress i s = s := by
  intro i
  induction i with
  | zero => intro s _; rfl
  | succ i ih =>
    intro s habs
    rw [RemoveClient.loop]
    cases hget : s.connectionList[i]? with
    | none => exact ih s habs
    | some c =>
      have hc : c ∈ s.connectionList := List.getElem?_mem hget
      have hne : ¬ c.pClientSocket.peerAddress.toIPv4Address = hAddress.toIPv4Address := by
        have := habs c hc
        simpa [Connection.isFor] using this
      simp only [hne, if_false]
      exact ih s habs

theorem RemoveClient_of_absent (s : ScoreController) (hAddress : QHostAddress)
    (habs : ∀ c ∈ s.connectionList, c.isFor hAddress = false) :
    RemoveClient s hAddress = s :=
  RemoveClient_loop_of_absent hAddress _ s habs

theorem RemoveClient_absent_after (s : ScoreController) (hAddress : QHostAddress) :
    ∀ c ∈ (RemoveClient s hAddress).connectionList, c.isFor hAddress = false := by
  intro c hc
  rw [RemoveClient_connectionList] at hc
  simpa using (List.mem_filter.mp hc).2

/-- C1 (control registry registration).  After `onNewConnection` with a socket
`pClient` of peer address `A`: the registry is the old registry without its
entries for `A`, followed by the new entry; the new entry is the only one that
matches `A` (by the registry's comparison, and so also the only one whose peer
address equals `A`); the registry to which the new entry was appended is the
result of `RemoveClient`, which holds no entry for `A`; and the sockets of the
previous entries for `A` have been disconnected, closed and deleted.  The new
entry is kept, so the eviction ran before the insertion. -/
theorem C1_onNewConnection_registers (s : ScoreController) (pClient : QWebSocket) :
    (onNewConnection s pClient).connectionList =
        s.connectionList.filter (fun c => !c.isFor pClient.peerAddress) ++ [⟨pClient⟩] ∧
    (onNewConnection s pClient).connectionList.filter
        (fun c => c.isFor pClient.peerAddress) = [⟨pClient⟩] ∧
    (onNewConnection s pClient).connectionList.filter
        (fun c => decide (c.pClientSocket.peerAddress = pClient.peerAddress)) = [⟨pClient⟩] ∧
    (onNewConnection s pClient).connectionList =
        (RemoveClient s pClient.peerAddress).connectionList ++ [⟨pClient⟩] ∧
    (∀ c ∈ (RemoveClient s pClient.peerAddress).connectionList,
        c.isFor pClient.peerAddress = false) ∧
    (onNewConnection s pClient).trace =
        s.trace ++ (((s.connectionList.filter (fun c => c.isFor pClient.peerAddress)).reverse.map
          (fun c => evict c.pClientSocket)).flatten) := by
  have hlist : (onNewConnection s pClient).connectionList =
      (RemoveClient s pClient.peerAddress).connectionList ++ [⟨pClient⟩] := by
    simp [onNewConnection, UpdateUI_connectionList]
  have habs := RemoveClient_absent_after s pClient.peerAddress
  have hself : (⟨pClient⟩ : Connection).isFor pClient.peerAddress = true := by
    simp [Connection.isFor]
  refine ⟨?_, ?_, ?_, hlist, habs, ?_⟩
  · rw [hlist, RemoveClient_connectionList]
  · rw [hlist, List.filter_append]
    have h0 : (RemoveClient s pClient.peerAddress).connectionList.filter
        (fun c => c.isFor pClient.peerAddress) = [] := by
      rw [List.filter_eq_nil_iff]
      intro c hc
      simp [habs c hc]
    rw [h0]
    simp [hself]
  · rw [hlist, List.filter_append]
    have h0 : (RemoveClient s pClient.peerAddress).connectionList.filter
        (fun c => decide (c.pClientSocket.peerAddress = pClient.peerAddress)) = [] := by
      rw [List.filter_eq_nil_iff]
      intro c hc
      have := habs c hc
      simp only [Connection.isFor, decide_eq_false_iff_not] at this
      simp only [decide_eq_true_eq]
      intro heq
      exact this (by rw [heq])
    rw [h0]
    simp
  · simp [onNewConnection, UpdateUI_trace, RemoveClient_trace]

/-- C8 (eviction idempotence).  `RemoveClient` on a registry with no entry for
the address returns the state unchanged; applying it twice gives the state
obtained by applying it once; and the registry it leaves consists of the
entries for the other addresses, in their original order.  An entry is "for"
an address when the registry's own comparison (`toIPv4Address()`) matches. -/
theorem C8_RemoveClient_idempotent (s : ScoreController) (hAddress : QHostAddress) :
    ((∀ c ∈ s.connectionList, c.isFor hAddress = false) → RemoveClient s hAddress = s) ∧
    RemoveClient (RemoveClient s hAddress) hAddress = RemoveClient s hAddress ∧
    (RemoveClient s hAddress).connectionList =
      s.connectionList.filter (fun c => !c.isFor hAddress) :=
  ⟨RemoveClient_of_absent s hAddress,
   RemoveClient_of_absent _ hAddress (RemoveClient_absent_after s hAddress),
   RemoveClient_connectionList s hAddress⟩

/-- C8 at a concrete registry: no entry for 10.0.0.9, two other entries. -/
theorem C8_RemoveClient_idempotent_witness :
    RemoveClient
      { connectionList := [⟨⟨1, .ipv4 167772161, true⟩⟩, ⟨⟨2, .ipv4 167772162, false⟩⟩],
        myStatus := Status.showSpots, sIpAddresses := [], trace := [] }
      (.ipv4 167772169) =
      { connectionList := [⟨⟨1, .ipv4 167772161, true⟩⟩, ⟨⟨2, .ipv4 167772162, false⟩⟩],
        myStatus := Status.showSpots, sIpAddresses := [], trace := [] } :=
  (C8_RemoveClient_idempotent _ _).1 (by decide)

end ScoreController

/-! ## Properties of the file-transfer service: requests -/

set_option maxRecDepth 100000

namespace FileServer

theorem intercalate_go_append (x y s : String) (l : List String) :
    String.intercalate.go (x ++ y) s l = x ++ String.intercalate.go y s l := by
  induction l generalizing y with
  | nil => simp [String.intercalate.go]
  | cons a l ih =>
    simp only [String.intercalate.go]
    rw [String.append_assoc, String.append_assoc, ← String.append_assoc y, ih]

theorem intercalate_cons_cons (s x y : String) (l : List String) :
    s.intercalate (x :: y :: l) = x ++ s ++ s.intercalate (y :: l) := by
  simp only [String.intercalate, String.intercalate.go]
  exact intercalate_go_append (x ++ s) y s l

/-- The loop over all entries but the last, followed by the last entry, is the
comma-separated list of the `name;size` entries. -/
theorem foldl_fileList (acc : String) (init : List QFileInfo) (last : QFileInfo) :
    init.foldl (fun acc f => acc ++ f.fileName ++ (";" ++ toString f.size ++ ",")) acc
        ++ last.fileName ++ (";" ++ toString last.size ++ "</file_list>") =
      acc ++ ",".intercalate ((init ++ [last]).map (fun f => f.fileName ++ ";" ++ toString f.size))
        ++ "</file_list>" := by
  induction init generalizing acc with
  | nil =>
    simp [String.intercalate, String.intercalate.go, String.append_assoc]
  | cons a init ih =>
    rw [List.foldl_cons, ih]
    cases init with
    | nil =>
      simp [String.intercalate, String.intercalate.go, String.append_assoc]
    | cons b init =>
      simp only [List.cons_append, List.map_cons]
      rw [intercalate_cons_cons]
      simp only [String.append_assoc]

theorem fileListMessage_eq (fileList : List QFileInfo) (hne : fileList ≠ []) :
    fileListMessage fileList =
      "<file_list>" ++ ",".intercalate (fileList.map (fun f => f.fileName ++ ";" ++ toString f.size))
        ++ "</file_list>" := by
  have hlast : fileList.getLast? = some (fileList.getLast hne) := List.getLast?_eq_getLast _ hne
  have hsplit : fileList.dropLast ++ [fileList.getLast hne] = fileList := List.dropLast_append_getLast hne
  unfold fileListMessage
  rw [hlast]
  simp only
  rw [foldl_fileList, hsplit]

/-- A message without a `get` tag goes straight to the `send_file_list` part. -/
theorem onProcessTextMessage_of_no_get (fs : FileSystem) (srv : FileServer)
    (pClient : QWebSocket) (sMessage : String)
    (hget : XML_Parse sMessage "get" = sNoData) :
    onProcessTextMessage fs srv pClient sMessage =
      onProcessTextMessage.sendFileList srv pClient sMessage := by
  unfold onProcessTextMessage
  simp [hget]

/-- C2 (file list reply).  For a message carrying the `send_file_list` tag, a
non-empty catalog and a valid sender, the `send_file_list` part of
`onProcessTextMessage` sends exactly one frame, a text frame to the sender,
equal to `<file_list>` followed by the entries `name;size` in catalog order
separated by `,` (none after the last) and by `</file_list>`, and changes
nothing else; when the message is a `send_file_list` request, carrying no `get`
tag (which would be handled first), this is all that `onProcessTextMessage`
does. -/
theorem C2_file_list_reply (fs : FileSystem) (srv : FileServer) (pClient : QWebSocket)
    (sMessage : String)
    (htag : XML_Parse sMessage "send_file_list" ≠ sNoData)
    (hcat : srv.fileList ≠ [])
    (hvalid : pClient.isValid = true) :
    onProcessTextMessage.sendFileList srv pClient sMessage =
      { srv with
        trace := srv.trace ++
          [Effect.sendTextMessage pClient
            ("<file_list>" ++
              ",".intercalate (srv.fileList.map (fun f => f.fileName ++ ";" ++ toString f.size))
              ++ "</file_list>")] } ∧
    (XML_Parse sMessage "get" = sNoData →
      onProcessTextMessage fs srv pClient sMessage =
        { srv with
          trace := srv.trace ++
            [Effect.sendTextMessage pClient
              ("<file_list>" ++
                ",".intercalate (srv.fileList.map (fun f => f.fileName ++ ";" ++ toString f.size))
                ++ "</file_list>")] }) := by
  have hemp : srv.fileList.isEmpty = false := by
    cases h : srv.fileList with
    | nil => exact absurd h hcat
    | cons a l => rfl
  have hpart : onProcessTextMessage.sendFileList srv pClient sMessage =
      { srv with
        trace := srv.trace ++
          [Effect.sendTextMessage pClient
            ("<file_list>" ++
              ",".intercalate (srv.fileList.map (fun f => f.fileName ++ ";" ++ toString f.size))
              ++ "</file_list>")] } := by
    unfold onProcessTextMessage.sendFileList
    simp only [htag, ne_eq, not_false_eq_true, if_true, hemp, hvalid, SendToOne,
      Bool.false_eq_true, if_false]
    rw [fileListMessage_eq _ hcat]
  refine ⟨hpart, fun hget => ?_⟩
  rw [onProcessTextMessage_of_no_get fs srv pClient sMessage hget, hpart]

/-- C2 on the catalog `a.jpg` (100 bytes), `b.jpg` (200 bytes). -/
theorem C2_file_list_reply_witness :
    onProcessTextMessage (fun _ => none)
        ⟨"/slides/", [⟨"a.jpg", 100⟩, ⟨"b.jpg", 200⟩], [⟨1, .ipv4 167772161, true⟩], []⟩
        ⟨1, .ipv4 167772161, true⟩ "<send_file_list>1</send_file_list>" =
      ⟨"/slides/", [⟨"a.jpg", 100⟩, ⟨"b.jpg", 200⟩], [⟨1, .ipv4 167772161, true⟩],
        [Effect.sendTextMessage ⟨1, .ipv4 167772161, true⟩
          "<file_list>a.jpg;100,b.jpg;200</file_list>"]⟩ :=
  (C2_file_list_reply (fun _ => none)
    ⟨"/slides/", [⟨"a.jpg", 100⟩, ⟨"b.jpg", 200⟩], [⟨1, .ipv4 167772161, true⟩], []⟩
    ⟨1, .ipv4 167772161, true⟩ "<send_file_list>1</send_file_list>"
    (by decide) (by decide) rfl).2 (by decide)

/-- C3 (empty catalog reply).  For a message carrying the `send_file_list` tag,
an empty catalog and a valid sender, the `send_file_list` part of
`onProcessTextMessage` sends exactly one frame, the text
`<file_list>0/file_list>`, and changes nothing else; when the message is a
`send_file_list` request, carrying no `get` tag (which would be handled first),
this is all that `onProcessTextMessage` does. -/
theorem C3_empty_catalog_reply (fs : FileSystem) (srv : FileServer) (pClient : QWebSocket)
    (sMessage : String)
    (htag : XML_Parse sMessage "send_file_list" ≠ sNoData)
    (hcat : srv.fileList = [])
    (hvalid : pClient.isValid = true) :
    onProcessTextMessage.sendFileList srv pClient sMessage =
      { srv with
        trace := srv.trace ++ [Effect.sendTextMessage pClient "<file_list>0/file_list>"] } ∧
    (XML_Parse sMessage "get" = sNoData →
      onProcessTextMessage fs srv pClient sMessage =
        { srv with
          trace := srv.trace ++ [Effect.sendTextMessage pClient "<file_list>0/file_list>"] }) := by
  have hpart : onProcessTextMessage.sendFileList srv pClient sMessage =
      { srv with
        trace := srv.trace ++ [Effect.sendTextMessage pClient "<file_list>0/file_list>"] } := by
    unfold onProcessTextMessage.sendFileList
    simp [htag, hcat, hvalid, SendToOne]
  refine ⟨hpart, fun hget => ?_⟩
  rw [onProcessTextMessage_of_no_get fs srv pClient sMessage hget, hpart]

/-- C3 on a server whose catalog is empty. -/
theorem C3_empty_catalog_reply_witness :
    onProcessTextMessage (fun _ => none) ⟨"/spots/", [], [], []⟩
        ⟨7, .ipv4 167772167, true⟩ "<send_file_list>1</send_file_list>" =
      ⟨"/spots/", [], [],
        [Effect.sendTextMessage ⟨7, .ipv4 167772167, true⟩ "<file_list>0/file_list>"]⟩ :=
  (C3_empty_catalog_reply (fun _ => none) ⟨"/spots/", [], [], []⟩
    ⟨7, .ipv4 167772167, true⟩ "<send_file_list>1</send_file_list>"
    (by decide) rfl rfl).2 (by decide)

/-- C5 (range error).  A `get` request naming an existing file of size `n`
whose start position (the value `startPos` read from the second field) is at
least `n` leaves the server as it was: no frame of any kind, binary or text, is
sent, and the call returns. -/
theorem C5_range_error_no_reply (fs : FileSystem) (srv : FileServer) (pClient : QWebSocket)
    (sMessage : String) (file : QFile)
    (hget : XML_Parse sMessage "get" ≠ sNoData)
    (hfile : fs (srv.sFileDir ++ (split (XML_Parse sMessage "get") ',').getD 0 "") = some file)
    (hstart : (file.content.length : Int) ≤
      toInt ((split (XML_Parse sMessage "get") ',').getD 1 "")) :
    onProcessTextMessage fs srv pClient sMessage = srv := by
  unfold onProcessTextMessage
  simp only [hget, ne_eq, not_false_eq_true, if_true, hfile]
  split_ifs <;> rfl

/-- C5 on `a.jpg` of 100 bytes with start 100. -/
theorem C5_range_error_no_reply_witness :
    onProcessTextMessage
        (fun p => if p = "/slides/a.jpg" then some ⟨List.replicate 100 65, true⟩ else none)
        ⟨"/slides/", [⟨"a.jpg", 100⟩], [], []⟩
        ⟨1, .ipv4 167772161, true⟩ "<get>a.jpg,100,10</get>" =
      ⟨"/slides/", [⟨"a.jpg", 100⟩], [], []⟩ :=
  C5_range_error_no_reply
    (fun p => if p = "/slides/a.jpg" then some ⟨List.replicate 100 65, true⟩ else none)
    ⟨"/slides/", [⟨"a.jpg", 100⟩], [], []⟩
    ⟨1, .ipv4 167772161, true⟩ "<get>a.jpg,100,10</get>" ⟨List.replicate 100 65, true⟩
    (by decide) (by decide) (by decide)

/-- C7 (malformed get).  When the `get` token splits on `,` into fewer than
three fields the server is left as it was: no frame of any kind is sent,
whatever else the message carries (a `send_file_list` tag included). -/
theorem C7_malformed_get_no_reply (fs : FileSystem) (srv : FileServer) (pClient : QWebSocket)
    (sMessage : String)
    (hget : XML_Parse sMessage "get" ≠ sNoData)
    (hargs : (split (XML_Parse sMessage "get") ',').length < 3) :
    onProcessTextMessage fs srv pClient sMessage = srv := by
  unfold onProcessTextMessage
  simp [hget, hargs]

/-- C7 on a two-field `get` token followed by a `send_file_list` tag. -/
theorem C7_malformed_get_no_reply_witness :
    onProcessTextMessage (fun _ => none)
        ⟨"/slides/", [⟨"a.jpg", 100⟩], [], []⟩
        ⟨1, .ipv4 167772161, true⟩ "<get>a.jpg,0</get><send_file_list>1</send_file_list>" =
      ⟨"/slides/", [⟨"a.jpg", 100⟩], [], []⟩ :=
  C7_malformed_get_no_reply (fun _ => none)
    ⟨"/slides/", [⟨"a.jpg", 100⟩], [], []⟩
    ⟨1, .ipv4 167772161, true⟩ "<get>a.jpg,0</get><send_file_list>1</send_file_list>"
    (by decide) (by decide)


theorem toLocal8Bit_append (a b : String) :
    toLocal8Bit (a ++ b) = toLocal8Bit a ++ toLocal8Bit b := by
  simp [toLocal8Bit, String.data_append]

/-- When the name, the comma and the size fit, the preamble is the text
`name,size` followed by NUL bytes up to 1024 bytes. -/
theorem preamble_eq (sFileName : String) (filesize : Nat) :
    preamble sFileName filesize =
      toLocal8Bit (sFileName ++ "," ++ toString filesize) ++
        List.replicate (1024 - (toLocal8Bit (sFileName ++ "," ++ toString filesize)).length) 0 := by
  simp [preamble, toLocal8Bit_append, String.append_assoc]

theorem preamble_length (sFileName : String) (filesize : Nat)
    (hfit : (toLocal8Bit (sFileName ++ "," ++ toString filesize)).length ≤ 1024) :
    (preamble sFileName filesize).length = 1024 := by
  rw [preamble_eq]
  simp only [List.length_append, List.length_replicate]
  omega

/-- A token that splits into three fields or more is not the sentinel. -/
theorem ne_sNoData_of_fields (sToken a b c : String) (more : List String)
    (h : split sToken ',' = a :: b :: c :: more) : sToken ≠ sNoData := by
  intro heq
  rw [heq] at h
  have h1 : (split sNoData ',').length = 1 := by decide
  rw [h] at h1
  simp at h1

/-- C4 (first chunk).  A `get` request whose fields are the name `f` of an
existing, readable file of size `n > 0`, a start field read as 0 and a length
field read as `L ≥ 1`, received from a valid socket, where `f,n` fits in 1024
bytes, makes `onProcessTextMessage` send exactly one frame: a binary frame
made of the 1024-byte preamble (the bytes of `f`, a comma, the decimal `n`, NUL
padding) followed by the first `min L n` bytes of the file. -/
theorem C4_first_chunk (fs : FileSystem) (srv : FileServer) (pClient : QWebSocket)
    (sMessage sFileName sStart sLength : String) (more : List String) (file : QFile) (L : Nat)
    (hargs : split (XML_Parse sMessage "get") ',' = sFileName :: sStart :: sLength :: more)
    (hstart : toInt sStart = 0)
    (hlen : toInt sLength = (L : Int))
    (hL : 1 ≤ L)
    (hfile : fs (srv.sFileDir ++ sFileName) = some file)
    (hopen : file.canOpen = true)
    (hsize : 0 < file.content.length)
    (hfit : (toLocal8Bit (sFileName ++ "," ++ toString file.content.length)).length ≤ 1024)
    (hvalid : pClient.isValid = true) :
    onProcessTextMessage fs srv pClient sMessage =
      { srv with
        trace := srv.trace ++
          [Effect.sendBinaryMessage pClient
            (toLocal8Bit (sFileName ++ "," ++ toString file.content.length) ++
              List.replicate
                (1024 - (toLocal8Bit (sFileName ++ "," ++ toString file.content.length)).length) 0 ++
              file.content.take (min L file.content.length))] } ∧
    (toLocal8Bit (sFileName ++ "," ++ toString file.content.length) ++
        List.replicate
          (1024 - (toLocal8Bit (sFileName ++ "," ++ toString file.content.length)).length) 0).length
      = 1024 ∧
    (toLocal8Bit (sFileName ++ "," ++ toString file.content.length) ++
        List.replicate
          (1024 - (toLocal8Bit (sFileName ++ "," ++ toString file.content.length)).length) 0 ++
        file.content.take (min L file.content.length)).length
      = 1024 + min L file.content.length := by
  have hget := ne_sNoData_of_fields _ _ _ _ _ hargs
  have hpre := preamble_length sFileName file.content.length hfit
  rw [preamble_eq] at hpre
  have hread : readAt file 0 (L : Int) = file.content.take (min L file.content.length) := by
    simp [readAt, List.take_eq_take]
  have hreadlen : (file.content.take (min L file.content.length)).length = min L file.content.length := by
    simp
  refine ⟨?_, hpre, ?_⟩
  · unfold onProcessTextMessage
    simp only [hget, ne_eq, not_false_eq_true, if_true, hargs, List.length_cons, List.getD_cons_zero,
      List.getD_cons_succ, hstart, hlen, hfile, hopen, hvalid]
    have h3 : ¬ (more.length + 1 + 1 + 1 < 3) := by omega
    have hsz : ¬ ((file.content.length : Int) ≤ 0) := by omega
    simp only [h3, hsz, if_false, le_refl, if_true, hread, preamble_eq]
    have hne : ¬ ((toLocal8Bit (sFileName ++ "," ++ toString file.content.length) ++
        List.replicate
          (1024 - (toLocal8Bit (sFileName ++ "," ++ toString file.content.length)).length) 0 ++
        file.content.take (min L file.content.length)).length = 1024) := by
      rw [List.length_append, hpre, hreadlen]
      omega
    simp only [hne, if_false]
  · rw [List.length_append, hpre, hreadlen]

/-- C4 on `a.jpg` of 100 bytes, start 0, length 100: a frame of 1124 bytes. -/
theorem C4_first_chunk_witness :
    onProcessTextMessage
        (fun p => if p = "/slides/a.jpg" then some ⟨List.replicate 100 65, true⟩ else none)
        ⟨"/slides/", [⟨"a.jpg", 100⟩], [], []⟩
        ⟨1, .ipv4 167772161, true⟩ "<get>a.jpg,0,100</get>" =
      ⟨"/slides/", [⟨"a.jpg", 100⟩], [],
        [Effect.sendBinaryMessage ⟨1, .ipv4 167772161, true⟩
          ([97, 46, 106, 112, 103, 44, 49, 48, 48] ++ List.replicate 1015 0 ++
            List.replicate 100 65)]⟩ ∧
    ([97, 46, 106, 112, 103, 44, 49, 48, 48] ++ List.replicate 1015 0 ++
        List.replicate 100 65 : List Nat).length = 1124 :=
  have h := C4_first_chunk
    (fun p => if p = "/slides/a.jpg" then some ⟨List.replicate 100 65, true⟩ else none)
    ⟨"/slides/", [⟨"a.jpg", 100⟩], [], []⟩
    ⟨1, .ipv4 167772161, true⟩ "<get>a.jpg,0,100</get>" "a.jpg" "0" "100" []
    ⟨List.replicate 100 65, true⟩ 100
    (by decide) (by decide) (by decide) (by decide) (by decide) rfl (by decide)
    (by decide) rfl
  ⟨h.1, by decide⟩

theorem splitAux_ne_nil (sep : Char) (cs cur : List Char) : splitAux sep cs cur ≠ [] := by
  induction cs generalizing cur with
  | nil => simp [splitAux]
  | cons c cs ih =>
    rw [splitAux]
    split_ifs
    · simp
    · exact ih _

theorem intercalate_cons_of_ne_nil (s x : String) (l : List String) (hl : l ≠ []) :
    s.intercalate (x :: l) = x ++ s ++ s.intercalate l := by
  cases l with
  | nil => exact absurd rfl hl
  | cons y l => exact intercalate_cons_cons s x y l

/-- Joining the pieces of a split with the separator gives back the text. -/
theorem splitAux_intercalate (sep : Char) (cs cur : List Char) :
    (String.singleton sep).intercalate (splitAux sep cs cur) = String.mk (cur.reverse ++ cs) := by
  induction cs generalizing cur with
  | nil => simp [splitAux, String.intercalate, String.intercalate.go]
  | cons c cs ih =>
    rw [splitAux]
    split_ifs with h
    · rw [intercalate_cons_of_ne_nil _ _ _ (splitAux_ne_nil sep cs []), ih]
      subst h
      apply String.ext
      simp [String.singleton, String.data_append]
    · rw [ih]
      simp

theorem split_intercalate (s : String) (sep : Char) :
    (String.singleton sep).intercalate (split s sep) = s := by
  unfold split
  rw [splitAux_intercalate]
  simp

/-- A token that splits into exactly three fields is these fields separated by
commas. -/
theorem token_of_three_fields (sToken F S L : String) (h : split sToken ',' = [F, S, L]) :
    sToken = F ++ "," ++ S ++ "," ++ L := by
  have hj := split_intercalate sToken ','
  rw [h] at hj
  rw [← hj]
  simp [String.intercalate, String.intercalate.go]
  rfl

/-- The reply to a `get` request for a file that does not exist: the token is
sent back inside `missingFile`, then the `send_file_list` part runs on that
reply text. -/
theorem onProcessTextMessage_of_missing (fs : FileSystem) (srv : FileServer)
    (pClient : QWebSocket) (sMessage : String)
    (hget : XML_Parse sMessage "get" ≠ sNoData)
    (hargs : 3 ≤ (split (XML_Parse sMessage "get") ',').length)
    (hfile : fs (srv.sFileDir ++ (split (XML_Parse sMessage "get") ',').getD 0 "") = none)
    (hvalid : pClient.isValid = true) :
    onProcessTextMessage fs srv pClient sMessage =
      onProcessTextMessage.sendFileList
        { srv with
          trace := srv.trace ++ [Effect.sendTextMessage pClient
            ("<missingFile>" ++ XML_Parse sMessage "get" ++ "</missingFile>")] }
        pClient ("<missingFile>" ++ XML_Parse sMessage "get" ++ "</missingFile>") := by
  unfold onProcessTextMessage
  have h3 : ¬ ((split (XML_Parse sMessage "get") ',').length < 3) := by omega
  simp only [hget, ne_eq, not_false_eq_true, if_true, h3, if_false, hfile, hvalid]

/-- C6, as amended (missing file).  A `get` request with fields `F`, `S`, `L`
naming a file that does not exist under the catalog directory, received from a
valid socket, makes `onProcessTextMessage` send exactly one frame, a text frame
equal to `<missingFile>F,S,L</missingFile>` (the token as received, with no
leading `get,`), provided that text carries no `send_file_list` tag. -/
theorem C6_missing_file_reply (fs : FileSystem) (srv : FileServer) (pClient : QWebSocket)
    (sMessage F S L : String)
    (hargs : split (XML_Parse sMessage "get") ',' = [F, S, L])
    (hfile : fs (srv.sFileDir ++ F) = none)
    (hvalid : pClient.isValid = true)
    (hnolist : XML_Parse ("<missingFile>" ++ F ++ "," ++ S ++ "," ++ L ++ "</missingFile>")
      "send_file_list" = sNoData) :
    onProcessTextMessage fs srv pClient sMessage =
      { srv with
        trace := srv.trace ++
          [Effect.sendTextMessage pClient
            ("<missingFile>" ++ F ++ "," ++ S ++ "," ++ L ++ "</missingFile>")] } := by
  have hget := ne_sNoData_of_fields _ _ _ _ _ hargs
  have htok := token_of_three_fields _ F S L hargs
  have hmsg : "<missingFile>" ++ XML_Parse sMessage "get" ++ "</missingFile>" =
      "<missingFile>" ++ F ++ "," ++ S ++ "," ++ L ++ "</missingFile>" := by
    rw [htok]; simp only [String.append_assoc]
  rw [onProcessTextMessage_of_missing fs srv pClient sMessage hget (by rw [hargs]; simp)
    (by rw [hargs]; simpa using hfile) hvalid, hmsg]
  unfold onProcessTextMessage.sendFileList
  simp [hnolist]

/-- C6 as amended, on a request for `x.jpg`, which does not exist. -/
theorem C6_missing_file_reply_witness :
    onProcessTextMessage (fun _ => none) ⟨"/slides/", [⟨"a.jpg", 100⟩], [], []⟩
        ⟨1, .ipv4 167772161, true⟩ "<get>x.jpg,0,100</get>" =
      ⟨"/slides/", [⟨"a.jpg", 100⟩], [],
        [Effect.sendTextMessage ⟨1, .ipv4 167772161, true⟩
          "<missingFile>x.jpg,0,100</missingFile>"]⟩ :=
  C6_missing_file_reply (fun _ => none) ⟨"/slides/", [⟨"a.jpg", 100⟩], [], []⟩
    ⟨1, .ipv4 167772161, true⟩ "<get>x.jpg,0,100</get>" "x.jpg" "0" "100"
    (by decide) rfl rfl (by decide)

/-- C6 as stated fails: for the request `<get>x.jpg,0,100</get>` on a missing
file the only frame sent is `<missingFile>x.jpg,0,100</missingFile>`, not
`<missingFile>get,x.jpg,0,100</missingFile>`. -/
theorem C6_missing_file_counterexample :
    (onProcessTextMessage (fun _ => none) ⟨"/slides/", [⟨"a.jpg", 100⟩], [], []⟩
        ⟨1, .ipv4 167772161, true⟩ "<get>x.jpg,0,100</get>").trace =
      [Effect.sendTextMessage ⟨1, .ipv4 167772161, true⟩
        "<missingFile>x.jpg,0,100</missingFile>"] ∧
    (onProcessTextMessage (fun _ => none) ⟨"/slides/", [⟨"a.jpg", 100⟩], [], []⟩
        ⟨1, .ipv4 167772161, true⟩ "<get>x.jpg,0,100</get>").trace ≠
      [Effect.sendTextMessage ⟨1, .ipv4 167772161, true⟩
        "<missingFile>get,x.jpg,0,100</missingFile>"] := by
  decide

/-- When the name of the missing file itself carries a `send_file_list` tag,
the `missingFile` reply is followed by a file-list reply. -/
theorem missing_file_then_file_list :
    (onProcessTextMessage (fun _ => none) ⟨"/slides/", [⟨"a.jpg", 100⟩], [], []⟩
        ⟨1, .ipv4 167772161, true⟩
        "<get><send_file_list>1</send_file_list>,0,1</get>").trace =
      [Effect.sendTextMessage ⟨1, .ipv4 167772161, true⟩
        "<missingFile><send_file_list>1</send_file_list>,0,1</missingFile>",
       Effect.sendTextMessage ⟨1, .ipv4 167772161, true⟩
        "<file_list>a.jpg;100</file_list>"] := by
  decide

/-! ## Properties of the file-transfer service: the connection set -/

/-- Without an entry for the peer address the scan changes nothing and the
handler goes on to append the new connection. -/
theorem onNewConnection_loop_of_absent (pClient : QWebSocket) :
    ∀ (i : Nat) (srv : FileServer),
      (∀ x ∈ srv.connections, x.peerAddress ≠ pClient.peerAddress) →
      onNewConnection.loop pClient i srv = Scan.proceed srv := by
  intro i
  induction i with
  | zero => intro srv _; rfl
  | succ i ih =>
    intro srv habs
    rw [onNewConnection.loop]
    cases hget : srv.connections[i]? with
    | none => exact ih srv habs
    | some ci =>
      have hne : ¬ ci.peerAddress = pClient.peerAddress := habs ci (List.getElem?_mem hget)
      simp only [hne, if_false]
      exact ih srv habs

/-- The scan passes over the entries that follow the last entry for the peer
address. -/
theorem onNewConnection_loop_skip (pClient : QWebSocket) (srv : FileServer)
    (l1 l2 : List QWebSocket) (e : QWebSocket)
    (hconn : srv.connections = l1 ++ e :: l2)
    (hafter : ∀ x ∈ l2, x.peerAddress ≠ pClient.peerAddress) :
    ∀ k, k ≤ l2.length →
      onNewConnection.loop pClient (l1.length + 1 + k) srv =
        onNewConnection.loop pClient (l1.length + 1) srv := by
  intro k
  induction k with
  | zero => intro _; rfl
  | succ k ih =>
    intro hk
    have hklt : k < l2.length := hk
    have hget : srv.connections[l1.length + 1 + k]? = some l2[k] := by
      rw [hconn, List.getElem?_append_right (by omega)]
      have : l1.length + 1 + k - l1.length = k + 1 := by omega
      rw [this, List.getElem?_cons_succ, List.getElem?_eq_getElem hklt]
    have hne : ¬ l2[k].peerAddress = pClient.peerAddress := hafter _ (List.getElem_mem hklt)
    rw [show l1.length + 1 + (k + 1) = (l1.length + 1 + k) + 1 from rfl, onNewConnection.loop, hget]
    simp only [hne, if_false]
    exact ih (Nat.le_of_lt hklt)

/-- What the scan does at the entry for the peer address. -/
theorem onNewConnection_loop_at (pClient : QWebSocket) (srv : FileServer)
    (l1 l2 : List QWebSocket) (e : QWebSocket)
    (hconn : srv.connections = l1 ++ e :: l2)
    (haddr : e.peerAddress = pClient.peerAddress) :
    onNewConnection.loop pClient (l1.length + 1) srv =
      if pClient.isValid then
        Scan.proceed
          { srv with
            connections := l1 ++ l2
            trace := srv.trace ++ [Effect.disconnect e, Effect.abort e, Effect.delete e] }
      else
        Scan.returned
          { srv with
            trace := srv.trace ++
              [Effect.disconnect pClient, Effect.close pClient, Effect.delete pClient] } := by
  have hget : srv.connections[l1.length]? = some e := by
    rw [hconn, List.getElem?_append_right (Nat.le_refl _)]
    simp
  have herase : srv.connections.eraseIdx l1.length = l1 ++ l2 := by
    rw [hconn, List.eraseIdx_append_of_length_le (Nat.le_refl _)]
    simp
  rw [onNewConnection.loop, hget]
  simp only [haddr, if_true, herase]
  cases hv : pClient.isValid <;> simp

/-- The handler on a set whose last entry for the peer address is `e`. -/
theorem onNewConnection_of_duplicate (srv : FileServer) (pClient : QWebSocket)
    (l1 l2 : List QWebSocket) (e : QWebSocket)
    (hconn : srv.connections = l1 ++ e :: l2)
    (haddr : e.peerAddress = pClient.peerAddress)
    (hafter : ∀ x ∈ l2, x.peerAddress ≠ pClient.peerAddress) :
    onNewConnection srv pClient =
      if pClient.isValid then
        { srv with
          connections := l1 ++ l2 ++ [pClient]
          trace := srv.trace ++ [Effect.disconnect e, Effect.abort e, Effect.delete e] }
      else
        { srv with
          trace := srv.trace ++
            [Effect.disconnect pClient, Effect.close pClient, Effect.delete pClient] } := by
  have hlen : srv.connections.length = l1.length + 1 + l2.length := by
    rw [hconn]; simp; omega
  unfold onNewConnection
  simp only [hlen]
  rw [onNewConnection_loop_skip pClient srv l1 l2 e hconn hafter l2.length (Nat.le_refl _),
    onNewConnection_loop_at pClient srv l1 l2 e hconn haddr]
  cases hv : pClient.isValid <;> simp

/-- The handler on a set with no entry for the peer address. -/
theorem onNewConnection_of_absent (srv : FileServer) (pClient : QWebSocket)
    (habs : ∀ x ∈ srv.connections, x.peerAddress ≠ pClient.peerAddress) :
    onNewConnection srv pClient =
      { srv with connections := srv.connections ++ [pClient] } := by
  unfold onNewConnection
  simp only [onNewConnection_loop_of_absent pClient _ srv habs]

theorem atMostOnePerAddress_erase (l : List QWebSocket) (pClient : QWebSocket)
    (h : AtMostOnePerAddress l) : AtMostOnePerAddress (l.erase pClient) :=
  List.Nodup.sublist ((List.erase_sublist pClient l).map _) h

/-- C9 (file-transfer connection-set invariant).  If the connection set holds
at most one connection per peer address, it still does after
`onNewConnection` (for any new socket, valid or not), after
`onClientDisconnected` and after `onClientSocketError`. -/
theorem C9_connection_set_invariant (srv : FileServer) (pClient : QWebSocket)
    (hinv : AtMostOnePerAddress srv.connections) :
    AtMostOnePerAddress (onNewConnection srv pClient).connections ∧
    AtMostOnePerAddress (onClientDisconnected srv pClient).connections ∧
    AtMostOnePerAddress (onClientSocketError srv pClient).connections := by
  refine ⟨?_, atMostOnePerAddress_erase _ _ hinv, atMostOnePerAddress_erase _ _ hinv⟩
  by_cases hex : ∃ x ∈ srv.connections, x.peerAddress = pClient.peerAddress
  · obtain ⟨e, hmem, haddr⟩ := hex
    obtain ⟨l1, l2, hconn⟩ := List.append_of_mem hmem
    have hnd : (l1.map QWebSocket.peerAddress ++
        e.peerAddress :: l2.map QWebSocket.peerAddress).Nodup := by
      have := hinv
      unfold AtMostOnePerAddress at this
      rw [hconn] at this
      simpa using this
    have hparts := List.nodup_append.mp hnd
    have hcons := List.nodup_cons.mp hparts.2.1
    have hafter : ∀ x ∈ l2, x.peerAddress ≠ pClient.peerAddress := by
      intro x hx heq
      exact hcons.1 (List.mem_map.mpr ⟨x, hx, by rw [heq, haddr]⟩)
    have hbefore : ∀ x ∈ l1, x.peerAddress ≠ pClient.peerAddress := by
      intro x hx heq
      exact hparts.2.2 (List.mem_map.mpr ⟨x, hx, rfl⟩) (by rw [heq, ← haddr]; simp)
    rw [onNewConnection_of_duplicate srv pClient l1 l2 e hconn haddr hafter]
    cases hv : pClient.isValid
    · simpa using hinv
    · simp only [if_true]
      unfold AtMostOnePerAddress
      have hsub : (l1 ++ l2).Sublist (l1 ++ e :: l2) :=
        List.Sublist.append (List.Sublist.refl l1) (List.sublist_cons_self e l2)
      have hnd2 : ((l1 ++ l2).map QWebSocket.peerAddress).Nodup := by
        have := hinv
        unfold AtMostOnePerAddress at this
        rw [hconn] at this
        exact List.Nodup.sublist (hsub.map _) this
      rw [List.map_append, List.nodup_append]
      refine ⟨hnd2, by simp, ?_⟩
      intro a ha hb
      simp only [List.map_cons, List.map_nil, List.mem_singleton] at hb
      obtain ⟨x, hx, hxa⟩ := List.mem_map.mp ha
      rcases List.mem_append.mp hx with h | h
      · exact hbefore x h (by rw [hxa, hb])
      · exact hafter x h (by rw [hxa, hb])
  · have habs : ∀ x ∈ srv.connections, x.peerAddress ≠ pClient.peerAddress := by
      intro x hx heq
      exact hex ⟨x, hx, heq⟩
    rw [onNewConnection_of_absent srv pClient habs]
    unfold AtMostOnePerAddress
    rw [List.map_append, List.nodup_append]
    refine ⟨hinv, by simp, ?_⟩
    intro a ha hb
    simp only [List.map_cons, List.map_nil, List.mem_singleton] at hb
    obtain ⟨x, hx, hxa⟩ := List.mem_map.mp ha
    exact habs x hx (by rw [hxa, hb])

/-- C9 on a set of two peers receiving a second, invalid connection from the
first peer. -/
theorem C9_connection_set_invariant_witness :
    AtMostOnePerAddress
      (onNewConnection
        ⟨"/slides/", [], [⟨1, .ipv4 167772161, true⟩, ⟨2, .ipv4 167772162, false⟩], []⟩
        ⟨3, .ipv4 167772161, false⟩).connections :=
  (C9_connection_set_invariant
    ⟨"/slides/", [], [⟨1, .ipv4 167772161, true⟩, ⟨2, .ipv4 167772162, false⟩], []⟩
    ⟨3, .ipv4 167772161, false⟩ (by decide)).1

/-- C10 (duplicate peer, existing valid and new valid).  When a valid socket
arrives from the address of a valid entry `e` of the connection set (the entry
the scan finds: no later entry has that address), `onNewConnection` removes
`e`, appends the new socket and leaves every other entry in place; `e` is
disconnected, aborted and deleted. -/
theorem C10_duplicate_both_valid (srv : FileServer) (pClient : QWebSocket)
    (l1 l2 : List QWebSocket) (e : QWebSocket)
    (hconn : srv.connections = l1 ++ e :: l2)
    (haddr : e.peerAddress = pClient.peerAddress)
    (hafter : ∀ x ∈ l2, x.peerAddress ≠ pClient.peerAddress)
    (_hold : e.isValid = true)
    (hnew : pClient.isValid = true) :
    onNewConnection srv pClient =
      { srv with
        connections := l1 ++ l2 ++ [pClient]
        trace := srv.trace ++ [Effect.disconnect e, Effect.abort e, Effect.delete e] } := by
  rw [onNewConnection_of_duplicate srv pClient l1 l2 e hconn haddr hafter]
  simp [hnew]

/-- C10 on a set of three peers, the second of which connects again. -/
theorem C10_duplicate_both_valid_witness :
    onNewConnection
        ⟨"/slides/", [],
          [⟨1, .ipv4 167772161, true⟩, ⟨2, .ipv4 167772162, true⟩, ⟨3, .ipv4 167772163, false⟩],
          []⟩
        ⟨4, .ipv4 167772162, true⟩ =
      ⟨"/slides/", [],
        [⟨1, .ipv4 167772161, true⟩, ⟨3, .ipv4 167772163, false⟩, ⟨4, .ipv4 167772162, true⟩],
        [Effect.disconnect ⟨2, .ipv4 167772162, true⟩, Effect.abort ⟨2, .ipv4 167772162, true⟩,
          Effect.delete ⟨2, .ipv4 167772162, true⟩]⟩ :=
  C10_duplicate_both_valid
    ⟨"/slides/", [],
      [⟨1, .ipv4 167772161, true⟩, ⟨2, .ipv4 167772162, true⟩, ⟨3, .ipv4 167772163, false⟩],
      []⟩
    ⟨4, .ipv4 167772162, true⟩
    [⟨1, .ipv4 167772161, true⟩] [⟨3, .ipv4 167772163, false⟩] ⟨2, .ipv4 167772162, true⟩
    rfl rfl (by decide) rfl rfl

end FileServer

/-! ## Duplicate peers with one invalid socket -/

namespace FileServer

/-- C11, as amended (duplicate peer, existing valid and new invalid).  When an
invalid socket arrives from the address of a valid entry `e` of the connection
set, `onNewConnection` disconnects, closes and deletes the new socket and
returns: the connection set, `e` included, is left exactly as it was. -/
theorem C11_duplicate_new_invalid (srv : FileServer) (pClient : QWebSocket)
    (l1 l2 : List QWebSocket) (e : QWebSocket)
    (hconn : srv.connections = l1 ++ e :: l2)
    (haddr : e.peerAddress = pClient.peerAddress)
    (hafter : ∀ x ∈ l2, x.peerAddress ≠ pClient.peerAddress)
    (_hold : e.isValid = true)
    (hnew : pClient.isValid = false) :
    onNewConnection srv pClient =
      { srv with
        trace := srv.trace ++
          [Effect.disconnect pClient, Effect.close pClient, Effect.delete pClient] } := by
  rw [onNewConnection_of_duplicate srv pClient l1 l2 e hconn haddr hafter]
  simp [hnew]

/-- C11 as amended, on a set of two peers, the first of which sends a second,
invalid connection. -/
theorem C11_duplicate_new_invalid_witness :
    onNewConnection
        ⟨"/slides/", [], [⟨1, .ipv4 167772161, true⟩, ⟨2, .ipv4 167772162, true⟩], []⟩
        ⟨3, .ipv4 167772161, false⟩ =
      ⟨"/slides/", [], [⟨1, .ipv4 167772161, true⟩, ⟨2, .ipv4 167772162, true⟩],
        [Effect.disconnect ⟨3, .ipv4 167772161, false⟩, Effect.close ⟨3, .ipv4 167772161, false⟩,
          Effect.delete ⟨3, .ipv4 167772161, false⟩]⟩ :=
  C11_duplicate_new_invalid
    ⟨"/slides/", [], [⟨1, .ipv4 167772161, true⟩, ⟨2, .ipv4 167772162, true⟩], []⟩
    ⟨3, .ipv4 167772161, false⟩
    [] [⟨2, .ipv4 167772162, true⟩] ⟨1, .ipv4 167772161, true⟩
    rfl rfl (by decide) rfl rfl

/-- C11 as stated fails: with the valid entry 1 in the set and the invalid
socket 3 arriving from the same address, the set afterwards still holds entry 1
and does not hold socket 3. -/
theorem C11_duplicate_new_invalid_counterexample :
    (onNewConnection ⟨"/slides/", [], [⟨1, .ipv4 167772161, true⟩], []⟩
        ⟨3, .ipv4 167772161, false⟩).connections = [⟨1, .ipv4 167772161, true⟩] ∧
    (⟨3, .ipv4 167772161, false⟩ : QWebSocket) ∉
      (onNewConnection ⟨"/slides/", [], [⟨1, .ipv4 167772161, true⟩], []⟩
        ⟨3, .ipv4 167772161, false⟩).connections := by
  decide

/-- C12, as amended (duplicate peer, existing invalid and new valid).  When a
valid socket arrives from the address of an invalid entry `e` of the connection
set, `onNewConnection` disconnects, aborts and deletes `e`, removes it from the
set and appends the new socket; every other entry stays in place and the new
socket is neither closed nor discarded. -/
theorem C12_duplicate_old_invalid (srv : FileServer) (pClient : QWebSocket)
    (l1 l2 : List QWebSocket) (e : QWebSocket)
    (hconn : srv.connections = l1 ++ e :: l2)
    (haddr : e.peerAddress = pClient.peerAddress)
    (hafter : ∀ x ∈ l2, x.peerAddress ≠ pClient.peerAddress)
    (_hold : e.isValid = false)
    (hnew : pClient.isValid = true) :
    onNewConnection srv pClient =
      { srv with
        connections := l1 ++ l2 ++ [pClient]
        trace := srv.trace ++ [Effect.disconnect e, Effect.abort e, Effect.delete e] } := by
  rw [onNewConnection_of_duplicate srv pClient l1 l2 e hconn haddr hafter]
  simp [hnew]

/-- C12 as amended, on a set of two peers, the first of which is invalid and
connects again. -/
theorem C12_duplicate_old_invalid_witness :
    onNewConnection
        ⟨"/slides/", [], [⟨1, .ipv4 167772161, false⟩, ⟨2, .ipv4 167772162, true⟩], []⟩
        ⟨3, .ipv4 167772161, true⟩ =
      ⟨"/slides/", [], [⟨2, .ipv4 167772162, true⟩, ⟨3, .ipv4 167772161, true⟩],
        [Effect.disconnect ⟨1, .ipv4 167772161, false⟩, Effect.abort ⟨1, .ipv4 167772161, false⟩,
          Effect.delete ⟨1, .ipv4 167772161, false⟩]⟩ :=
  C12_duplicate_old_invalid
    ⟨"/slides/", [], [⟨1, .ipv4 167772161, false⟩, ⟨2, .ipv4 167772162, true⟩], []⟩
    ⟨3, .ipv4 167772161, true⟩
    [] [⟨2, .ipv4 167772162, true⟩] ⟨1, .ipv4 167772161, false⟩
    rfl rfl (by decide) rfl rfl

/-- C12 as stated fails: with the invalid entry 1 in the set and the valid
socket 3 arriving from the same address, the set afterwards holds socket 3
alone, and no call was made on socket 3. -/
theorem C12_duplicate_old_invalid_counterexample :
    (onNewConnection ⟨"/slides/", [], [⟨1, .ipv4 167772161, false⟩], []⟩
        ⟨3, .ipv4 167772161, true⟩).connections = [⟨3, .ipv4 167772161, true⟩] ∧
    (onNewConnection ⟨"/slides/", [], [⟨1, .ipv4 167772161, false⟩], []⟩
        ⟨3, .ipv4 167772161, true⟩).trace =
      [Effect.disconnect ⟨1, .ipv4 167772161, false⟩, Effect.abort ⟨1, .ipv4 167772161, false⟩,
        Effect.delete ⟨1, .ipv4 167772161, false⟩] := by
  decide

end FileServer

/-! ## The preamble and the chunks after the first -/

namespace FileServer

theorem toLocal8Bit_comma : toLocal8Bit "," = [44] := by decide

/-- The layout of the preamble: name, comma, decimal size, NUL bytes. -/
theorem preamble_layout (sFileName : String) (filesize : Nat) :
    preamble sFileName filesize =
      toLocal8Bit sFileName ++ [44] ++ toLocal8Bit (toString filesize) ++
        List.replicate
          (1024 - ((toLocal8Bit sFileName).length + 1 + (toLocal8Bit (toString filesize)).length))
          0 := by
  have hk : (toLocal8Bit sFileName).length + ((toLocal8Bit (toString filesize)).length + 1) =
      (toLocal8Bit sFileName).length + 1 + (toLocal8Bit (toString filesize)).length := by omega
  simp [preamble, toLocal8Bit_append, toLocal8Bit_comma, hk]

/-- C13, as amended (preamble size).  For every file name and file size such
that name, comma and decimal size fit in 1024 bytes, the preamble is exactly
1024 bytes long and consists of the bytes of the name, a comma (byte 44), the
decimal size, then only NUL bytes. -/
theorem C13_preamble_size (sFileName : String) (filesize : Nat)
    (hfit : (toLocal8Bit sFileName).length + 1 + (toLocal8Bit (toString filesize)).length
      ≤ 1024) :
    preamble sFileName filesize =
      toLocal8Bit sFileName ++ [44] ++ toLocal8Bit (toString filesize) ++
        List.replicate
          (1024 - ((toLocal8Bit sFileName).length + 1 + (toLocal8Bit (toString filesize)).length))
          0 ∧
    (preamble sFileName filesize).length = 1024 := by
  refine ⟨preamble_layout sFileName filesize, ?_⟩
  rw [preamble_layout]
  simp only [List.length_append, List.length_replicate, List.length_cons, List.length_nil]
  omega

/-- C13 as amended, on `a.jpg` of 100 bytes: `a.jpg,100` and 1015 NUL bytes. -/
theorem C13_preamble_size_witness :
    preamble "a.jpg" 100 =
      [97, 46, 106, 112, 103, 44, 49, 48, 48] ++ List.replicate 1015 0 ∧
    (preamble "a.jpg" 100).length = 1024 :=
  C13_preamble_size "a.jpg" 100 (by decide)

theorem toLocal8Bit_slashes (n : Nat) :
    toLocal8Bit (String.mk (List.replicate n '/')) = List.replicate n 47 := by
  induction n with
  | zero => rfl
  | succ n ih =>
    have hcons : toLocal8Bit (String.mk ('/' :: List.replicate n '/')) =
        47 :: toLocal8Bit (String.mk (List.replicate n '/')) := by
      simp [toLocal8Bit, utf8Encode]
    rw [List.replicate_succ, hcons, ih, List.replicate_succ]

/-- C13 as stated fails: for the name made of 1020 times `/` followed by
`a.jpg` (1025 bytes, a path of the file `a.jpg` in the catalog directory) and
the size 100, the preamble is 1029 bytes long, not 1024. -/
theorem C13_preamble_size_counterexample :
    (preamble (String.mk (List.replicate 1020 '/') ++ "a.jpg") 100).length = 1029 ∧
    (preamble (String.mk (List.replicate 1020 '/') ++ "a.jpg") 100).length ≠ 1024 := by
  have hname : (toLocal8Bit (String.mk (List.replicate 1020 '/') ++ "a.jpg")).length = 1025 := by
    rw [toLocal8Bit_append, toLocal8Bit_slashes, List.length_append, List.length_replicate]
    decide
  have hsize : (toLocal8Bit (toString 100)).length = 3 := by decide
  have hlen : (preamble (String.mk (List.replicate 1020 '/') ++ "a.jpg") 100).length = 1029 := by
    rw [preamble_layout]
    simp only [List.length_append, List.length_replicate, List.length_cons, List.length_nil,
      hname, hsize]
  rw [hlen]
  exact ⟨rfl, by decide⟩

/-- A chunk after the first (`0 < startPos < size`) is sent, with no preamble,
unless exactly 1024 bytes were read. -/
theorem continuation_chunk_sent (fs : FileSystem) (srv : FileServer) (pClient : QWebSocket)
    (sMessage sFileName sStart sLength : String) (more : List String) (file : QFile)
    (start L : Nat)
    (hargs : split (XML_Parse sMessage "get") ',' = sFileName :: sStart :: sLength :: more)
    (hstart : toInt sStart = (start : Int))
    (hpos : 0 < start)
    (hlt : start < file.content.length)
    (hlen : toInt sLength = (L : Int))
    (hfile : fs (srv.sFileDir ++ sFileName) = some file)
    (hopen : file.canOpen = true)
    (hvalid : pClient.isValid = true)
    (hne : ((file.content.drop start).take L).length ≠ 1024) :
    onProcessTextMessage fs srv pClient sMessage =
      { srv with
        trace := srv.trace ++
          [Effect.sendBinaryMessage pClient ((file.content.drop start).take L)] } := by
  have hget := ne_sNoData_of_fields _ _ _ _ _ hargs
  unfold onProcessTextMessage
  simp only [hget, ne_eq, not_false_eq_true, if_true, hargs, List.length_cons, List.getD_cons_zero,
    List.getD_cons_succ, hstart, hlen, hfile, hopen, hvalid]
  have h3 : ¬ (more.length + 1 + 1 + 1 < 3) := by omega
  have hsz : ¬ ((file.content.length : Int) ≤ (start : Int)) := by omega
  have h0 : ¬ ((start : Int) = 0) := by omega
  have hge : (0 : Int) ≤ (start : Int) := by omega
  simp only [h3, hsz, h0, hge, if_false, if_true, readAt, Int.toNat_ofNat, List.nil_append, hne]

/-- A chunk after the first of which exactly 1024 bytes were read is not
sent. -/
theorem continuation_chunk_of_1024_dropped (fs : FileSystem) (srv : FileServer)
    (pClient : QWebSocket)
    (sMessage sFileName sStart sLength : String) (more : List String) (file : QFile)
    (start L : Nat)
    (hargs : split (XML_Parse sMessage "get") ',' = sFileName :: sStart :: sLength :: more)
    (hstart : toInt sStart = (start : Int))
    (hpos : 0 < start)
    (hlen : toInt sLength = (L : Int))
    (hfile : fs (srv.sFileDir ++ sFileName) = some file)
    (h1024 : ((file.content.drop start).take L).length = 1024) :
    onProcessTextMessage fs srv pClient sMessage = srv := by
  have hget := ne_sNoData_of_fields _ _ _ _ _ hargs
  unfold onProcessTextMessage
  simp only [hget, ne_eq, not_false_eq_true, if_true, hargs, List.length_cons, List.getD_cons_zero,
    List.getD_cons_succ, hstart, hlen, hfile]
  have h3 : ¬ (more.length + 1 + 1 + 1 < 3) := by omega
  have h0 : ¬ ((start : Int) = 0) := by omega
  have hge : (0 : Int) ≤ (start : Int) := by omega
  simp only [h3, h0, hge, if_false, if_true, readAt, Int.toNat_ofNat, List.nil_append, h1024]
  split_ifs <;> rfl

/-- C14 at the failing input: on a file of 2048 bytes the request
`<get>a.jpg,1024,1024</get>` from a valid socket reads the 1024 bytes from
offset 1024 and sends nothing. -/
theorem C14_continuation_chunk_of_1024_bytes :
    onProcessTextMessage
        (fun p => if p = "/slides/a.jpg" then some ⟨List.replicate 2048 65, true⟩ else none)
        ⟨"/slides/", [⟨"a.jpg", 2048⟩], [], []⟩
        ⟨1, .ipv4 167772161, true⟩ "<get>a.jpg,1024,1024</get>" =
      ⟨"/slides/", [⟨"a.jpg", 2048⟩], [], []⟩ :=
  continuation_chunk_of_1024_dropped
    (fun p => if p = "/slides/a.jpg" then some ⟨List.replicate 2048 65, true⟩ else none)
    ⟨"/slides/", [⟨"a.jpg", 2048⟩], [], []⟩
    ⟨1, .ipv4 167772161, true⟩ "<get>a.jpg,1024,1024</get>" "a.jpg" "1024" "1024" []
    ⟨List.replicate 2048 65, true⟩ 1024 1024
    (by decide) (by decide) (by decide) (by decide) rfl (by simp)

/-- C15 at the failing input: on a file of 100 bytes the request
`<get>a.jpg,10,0</get>` from a valid socket reads no byte and an empty binary
frame is sent; with start 0 the same request sends nothing. -/
theorem C15_zero_byte_read_after_start :
    onProcessTextMessage
        (fun p => if p = "/slides/a.jpg" then some ⟨List.replicate 100 65, true⟩ else none)
        ⟨"/slides/", [⟨"a.jpg", 100⟩], [], []⟩
        ⟨1, .ipv4 167772161, true⟩ "<get>a.jpg,10,0</get>" =
      ⟨"/slides/", [⟨"a.jpg", 100⟩], [],
        [Effect.sendBinaryMessage ⟨1, .ipv4 167772161, true⟩ []]⟩ ∧
    onProcessTextMessage
        (fun p => if p = "/slides/a.jpg" then some ⟨List.replicate 100 65, true⟩ else none)
        ⟨"/slides/", [⟨"a.jpg", 100⟩], [], []⟩
        ⟨1, .ipv4 167772161, true⟩ "<get>a.jpg,0,0</get>" =
      ⟨"/slides/", [⟨"a.jpg", 100⟩], [], []⟩ := by
  decide

end FileServer

/-! ## Sending on the control channel -/

namespace ScoreController

theorem UpdateUI_length (s : ScoreController) :
    (UpdateUI s).connectionList.length = s.connectionList.length := by
  rw [UpdateUI_connectionList]

/-- The search loop finds nothing when no entry has the address. -/
theorem SendToOne_loop_of_absent (pClient : QWebSocket) (sMessage : String) :
    ∀ l : List Connection, (∀ c ∈ l, c.isFor pClient.peerAddress = false) →
      SendToOne.loop pClient sMessage l = [] := by
  intro l
  induction l with
  | nil => intro _; rfl
  | cons c rest ih =>
    intro habs
    have hc : ¬ c.pClientSocket.peerAddress.toIPv4Address = pClient.peerAddress.toIPv4Address := by
      have := habs c (List.mem_cons_self _ _)
      simpa [Connection.isFor] using this
    rw [SendToOne.loop]
    simp only [hc, if_false]
    exact ih (fun x hx => habs x (List.mem_cons_of_mem _ hx))

/-- The search loop writes once when some entry has the address. -/
theorem SendToOne_loop_of_present (pClient : QWebSocket) (sMessage : String) :
    ∀ l : List Connection, (∃ c ∈ l, c.isFor pClient.peerAddress = true) →
      SendToOne.loop pClient sMessage l = [Effect.sendTextMessage pClient sMessage] := by
  intro l
  induction l with
  | nil => intro h; obtain ⟨c, hc, _⟩ := h; cases hc
  | cons c rest ih =>
    intro h
    rw [SendToOne.loop]
    by_cases hc : c.pClientSocket.peerAddress.toIPv4Address = pClient.peerAddress.toIPv4Address
    · simp only [hc, if_true]
    · simp only [hc, if_false]
      apply ih
      obtain ⟨x, hx, hfor⟩ := h
      rcases List.mem_cons.mp hx with rfl | hx
      · exact absurd (by simpa [Connection.isFor] using hfor) hc
      · exact ⟨x, hx, hfor⟩

/-- C17, as amended (SendToOne on the control channel).  For every registry
state, socket `c` and message `m`: if `c` is valid and the registry holds an
entry for the address of `c`, `SendToOne` writes `m` to `c` exactly once and
changes nothing else; if `c` is valid and the registry holds no entry for its
address, nothing is written and nothing changes; if `c` is invalid, no text is
written, the entries for the address of `c` are evicted (the others stay, in
order) and the registry afterwards has no entry for that address. -/
theorem C17_SendToOne (s : ScoreController) (pClient : QWebSocket) (sMessage : String) :
    (pClient.isValid = true →
      (∃ c ∈ s.connectionList, c.isFor pClient.peerAddress = true) →
      SendToOne s pClient sMessage =
        { s with trace := s.trace ++ [Effect.sendTextMessage pClient sMessage] }) ∧
    (pClient.isValid = true →
      (∀ c ∈ s.connectionList, c.isFor pClient.peerAddress = false) →
      SendToOne s pClient sMessage = s) ∧
    (pClient.isValid = false →
      (SendToOne s pClient sMessage).connectionList =
          s.connectionList.filter (fun c => !c.isFor pClient.peerAddress) ∧
      (∀ c ∈ (SendToOne s pClient sMessage).connectionList,
          c.isFor pClient.peerAddress = false) ∧
      (SendToOne s pClient sMessage).trace =
          s.trace ++ (((s.connectionList.filter (fun c => c.isFor pClient.peerAddress)).reverse.map
            (fun c => evict c.pClientSocket)).flatten)) := by
  refine ⟨fun hv hex => ?_, fun hv habs => ?_, fun hv => ?_⟩
  · simp only [SendToOne, hv, if_true, SendToOne_loop_of_present pClient sMessage _ hex]
  · simp only [SendToOne, hv, if_true, SendToOne_loop_of_absent pClient sMessage _ habs,
      List.append_nil]
  · have hlist : (SendToOne s pClient sMessage).connectionList =
        (RemoveClient s pClient.peerAddress).connectionList := by
      simp [SendToOne, hv, UpdateUI_connectionList]
    refine ⟨?_, ?_, ?_⟩
    · rw [hlist, RemoveClient_connectionList]
    · rw [hlist]; exact RemoveClient_absent_after s pClient.peerAddress
    · simp [SendToOne, hv, UpdateUI_trace, RemoveClient_trace]

/-- C17 as amended, on a registry of two valid peers and the socket of the
second. -/
theorem C17_SendToOne_witness :
    SendToOne
        ⟨[⟨⟨1, .ipv4 167772161, true⟩⟩, ⟨⟨2, .ipv4 167772162, true⟩⟩], Status.showPanel, [], []⟩
        ⟨2, .ipv4 167772162, true⟩ "<getOrientation>1</getOrientation>" =
      ⟨[⟨⟨1, .ipv4 167772161, true⟩⟩, ⟨⟨2, .ipv4 167772162, true⟩⟩], Status.showPanel, [],
        [Effect.sendTextMessage ⟨2, .ipv4 167772162, true⟩
          "<getOrientation>1</getOrientation>"]⟩ :=
  (C17_SendToOne
    ⟨[⟨⟨1, .ipv4 167772161, true⟩⟩, ⟨⟨2, .ipv4 167772162, true⟩⟩], Status.showPanel, [], []⟩
    ⟨2, .ipv4 167772162, true⟩ "<getOrientation>1</getOrientation>").1 rfl (by decide)

/-- C17 as stated fails: on a registry that holds only peer 1, `SendToOne` on
the valid socket of peer 2 writes nothing. -/
theorem C17_SendToOne_counterexample :
    (SendToOne ⟨[⟨⟨1, .ipv4 167772161, true⟩⟩], Status.showPanel, [], []⟩
        ⟨2, .ipv4 167772162, true⟩ "<getOrientation>1</getOrientation>").trace = [] := by
  decide

theorem SendToOne_length_le (s : ScoreController) (pClient : QWebSocket) (sMessage : String) :
    (SendToOne s pClient sMessage).connectionList.length ≤ s.connectionList.length := by
  unfold SendToOne
  split_ifs
  · exact Nat.le_refl _
  · rw [UpdateUI_connectionList, RemoveClient_connectionList]
    exact List.length_filter_le _ _

/-- The rounds of `SendToAll` never outnumber the entries: with at least as
much fuel as entries remain from index `i` on, more fuel changes nothing. -/
theorem SendToAll_loop_fuel (sMessage : String) :
    ∀ (fuel i : Nat) (s : ScoreController), s.connectionList.length ≤ i + fuel →
      ∀ extra : Nat,
        SendToAll.loop sMessage (fuel + extra) i s = SendToAll.loop sMessage fuel i s := by
  intro fuel
  induction fuel with
  | zero =>
    intro i s hlen extra
    have hnone : s.connectionList[i]? = none := List.getElem?_eq_none (by omega)
    cases extra with
    | zero => rfl
    | succ e =>
      rw [show 0 + (e + 1) = e + 1 from by omega]
      simp [SendToAll.loop, hnone]
  | succ fuel ih =>
    intro i s hlen extra
    rw [show fuel + 1 + extra = (fuel + extra) + 1 from by omega, SendToAll.loop, SendToAll.loop]
    cases hget : s.connectionList[i]? with
    | none => rfl
    | some c =>
      simp only
      apply ih
      have := SendToOne_length_le s c.pClientSocket sMessage
      omega

/-- On a registry of valid sockets the loop of `SendToAll` writes the text to
the socket of every entry from index `i` on, in order, and changes nothing
else. -/
theorem SendToAll_loop_of_valid (sMessage : String) :
    ∀ (fuel i : Nat) (s : ScoreController),
      (∀ c ∈ s.connectionList, c.pClientSocket.isValid = true) →
      s.connectionList.length ≤ i + fuel →
      SendToAll.loop sMessage fuel i s =
        { s with
          trace := s.trace ++
            (s.connectionList.drop i).map
              (fun c => Effect.sendTextMessage c.pClientSocket sMessage) } := by
  intro fuel
  induction fuel with
  | zero =>
    intro i s _ hlen
    have hdrop : s.connectionList.drop i = [] := List.drop_of_length_le (by omega)
    simp [SendToAll.loop, hdrop]
  | succ fuel ih =>
    intro i s hvalid hlen
    rw [SendToAll.loop]
    cases hget : s.connectionList[i]? with
    | none =>
      have hge : s.connectionList.length ≤ i := by
        by_contra hlt
        have hlt2 : i < s.connectionList.length := by omega
        rw [List.getElem?_eq_getElem hlt2] at hget
        cases hget
      have hdrop : s.connectionList.drop i = [] := List.drop_of_length_le hge
      simp [hdrop]
    | some c =>
      have hmem : c ∈ s.connectionList := List.getElem?_mem hget
      have hlt : i < s.connectionList.length := by
        by_contra hge
        rw [List.getElem?_eq_none (by omega)] at hget
        cases hget
      have hci : s.connectionList[i] = c := by
        rw [List.getElem?_eq_getElem hlt] at hget
        exact Option.some.inj hget
      have hsend : SendToOne s c.pClientSocket sMessage =
          { s with trace := s.trace ++ [Effect.sendTextMessage c.pClientSocket sMessage] } := by
        simp only [SendToOne, hvalid c hmem, if_true]
        rw [SendToOne_loop_of_present c.pClientSocket sMessage _
          ⟨c, hmem, by simp [Connection.isFor]⟩]
      simp only
      have hnext := ih (i + 1)
        { s with trace := s.trace ++ [Effect.sendTextMessage c.pClientSocket sMessage] }
        hvalid (by simpa using (by omega : s.connectionList.length ≤ i + 1 + fuel))
      rw [hsend, hnext]
      have hdrop : s.connectionList.drop i = c :: s.connectionList.drop (i + 1) := by
        rw [List.drop_eq_getElem_cons hlt, hci]
      simp [hdrop, List.append_assoc]

/-- On a registry of valid sockets `SendToAll` writes the text once to the
socket of every entry, in registry order, and changes nothing else. -/
theorem SendToAll_of_valid (s : ScoreController) (sMessage : String)
    (hvalid : ∀ c ∈ s.connectionList, c.pClientSocket.isValid = true) :
    SendToAll s sMessage =
      { s with
        trace := s.trace ++
          s.connectionList.map (fun c => Effect.sendTextMessage c.pClientSocket sMessage) } := by
  unfold SendToAll
  rw [SendToAll_loop_of_valid sMessage _ 0 s hvalid (by omega)]
  simp

/-- C16 at the failing input: on the registry made of the invalid socket 1
followed by the valid socket 2, `SendToAll` evicts socket 1 and stops; socket 2
stays registered and nothing is written to it. -/
theorem C16_SendToAll_skips_after_eviction :
    SendToAll
        ⟨[⟨⟨1, .ipv4 167772161, false⟩⟩, ⟨⟨2, .ipv4 167772162, true⟩⟩], Status.showPanel, [], []⟩
        "<kill>1</kill>" =
      ⟨[⟨⟨2, .ipv4 167772162, true⟩⟩], Status.showPanel, [],
        [Effect.disconnect ⟨1, .ipv4 167772161, false⟩,
          Effect.delete ⟨1, .ipv4 167772161, false⟩]⟩ := by
  decide

end ScoreController

/-! ## The start/stop handlers and the mode -/

namespace ScoreController

/-- The spot-loop handler in a mode other than `showPanel`, on a non-empty
registry of valid sockets. -/
theorem spotLoop_stop (s : ScoreController)
    (hlen : ¬ s.connectionList.length = 0)
    (hvalid : ∀ c ∈ s.connectionList, c.pClientSocket.isValid = true)
    (hmode : s.myStatus ≠ Status.showPanel) :
    onButtonStartStopSpotLoopClicked s =
      { s with
        trace := s.trace ++ s.connectionList.map
          (fun c => Effect.sendTextMessage c.pClientSocket "<endspotloop>1</endspotloop>")
        myStatus := Status.showPanel } := by
  simp only [onButtonStartStopSpotLoopClicked, hlen, if_false, hmode,
    SendToAll_of_valid s _ hvalid]

/-- The slideshow handler in a mode other than `showPanel`, on a non-empty
registry of valid sockets. -/
theorem slideShow_stop (s : ScoreController)
    (hlen : ¬ s.connectionList.length = 0)
    (hvalid : ∀ c ∈ s.connectionList, c.pClientSocket.isValid = true)
    (hmode : s.myStatus ≠ Status.showPanel) :
    onButtonStartStopSlideShowClicked s =
      { s with
        trace := s.trace ++ s.connectionList.map
          (fun c => Effect.sendTextMessage c.pClientSocket "<endslideshow>1</endslideshow>")
        myStatus := Status.showPanel } := by
  simp only [onButtonStartStopSlideShowClicked, hlen, if_false, hmode,
    SendToAll_of_valid s _ hvalid]

/-- The live-camera handler in a mode other than `showPanel`, on a non-empty
registry of valid sockets. -/
theorem liveCamera_stop (s : ScoreController)
    (hlen : ¬ s.connectionList.length = 0)
    (hvalid : ∀ c ∈ s.connectionList, c.pClientSocket.isValid = true)
    (hmode : s.myStatus ≠ Status.showPanel) :
    onButtonStartStopLiveCameraClicked s =
      { s with
        trace := s.trace ++ s.connectionList.map
          (fun c => Effect.sendTextMessage c.pClientSocket "<endlive>1</endlive>")
        myStatus := Status.showPanel } := by
  simp only [onButtonStartStopLiveCameraClicked, hlen, if_false, hmode,
    SendToAll_of_valid s _ hvalid]

/-- C19 (mode transitions).  From `showPanel`, with a non-empty registry of
valid sockets, the spot-loop, slideshow and live-camera handlers write
`<spotloop>1</spotloop>`, `<slideshow>1</slideshow>`, `<live>1</live>` once to
every registered socket, in registry order, and set the mode to `showSpots`,
`showSlides`, `showCamera`; the same handler invoked again writes
`<endspotloop>1</endspotloop>`, `<endslideshow>1</endslideshow>`,
`<endlive>1</endlive>` to every socket and sets the mode back to `showPanel`.
The registry is not changed. -/
theorem C19_mode_transitions (s : ScoreController)
    (hpanel : s.myStatus = Status.showPanel)
    (hne : s.connectionList ≠ [])
    (hvalid : ∀ c ∈ s.connectionList, c.pClientSocket.isValid = true) :
    (onButtonStartStopSpotLoopClicked s =
        { s with
          trace := s.trace ++ s.connectionList.map
            (fun c => Effect.sendTextMessage c.pClientSocket "<spotloop>1</spotloop>")
          myStatus := Status.showSpots } ∧
      onButtonStartStopSpotLoopClicked (onButtonStartStopSpotLoopClicked s) =
        { s with
          trace := s.trace ++ s.connectionList.map
              (fun c => Effect.sendTextMessage c.pClientSocket "<spotloop>1</spotloop>") ++
            s.connectionList.map
              (fun c => Effect.sendTextMessage c.pClientSocket "<endspotloop>1</endspotloop>")
          myStatus := Status.showPanel }) ∧
    (onButtonStartStopSlideShowClicked s =
        { s with
          trace := s.trace ++ s.connectionList.map
            (fun c => Effect.sendTextMessage c.pClientSocket "<slideshow>1</slideshow>")
          myStatus := Status.showSlides } ∧
      onButtonStartStopSlideShowClicked (onButtonStartStopSlideShowClicked s) =
        { s with
          trace := s.trace ++ s.connectionList.map
              (fun c => Effect.sendTextMessage c.pClientSocket "<slideshow>1</slideshow>") ++
            s.connectionList.map
              (fun c => Effect.sendTextMessage c.pClientSocket "<endslideshow>1</endslideshow>")
          myStatus := Status.showPanel }) ∧
    (onButtonStartStopLiveCameraClicked s =
        { s with
          trace := s.trace ++ s.connectionList.map
            (fun c => Effect.sendTextMessage c.pClientSocket "<live>1</live>")
          myStatus := Status.showCamera } ∧
      onButtonStartStopLiveCameraClicked (onButtonStartStopLiveCameraClicked s) =
        { s with
          trace := s.trace ++ s.connectionList.map
              (fun c => Effect.sendTextMessage c.pClientSocket "<live>1</live>") ++
            s.connectionList.map
              (fun c => Effect.sendTextMessage c.pClientSocket "<endlive>1</endlive>")
          myStatus := Status.showPanel }) := by
  have hlen : ¬ s.connectionList.length = 0 := by
    intro h
    exact hne (List.length_eq_zero.mp h)
  have hspot : onButtonStartStopSpotLoopClicked s =
      { s with
        trace := s.trace ++ s.connectionList.map
          (fun c => Effect.sendTextMessage c.pClientSocket "<spotloop>1</spotloop>")
        myStatus := Status.showSpots } := by
    simp only [onButtonStartStopSpotLoopClicked, hlen, if_false, hpanel, if_true,
      SendToAll_of_valid s _ hvalid]
  have hslide : onButtonStartStopSlideShowClicked s =
      { s with
        trace := s.trace ++ s.connectionList.map
          (fun c => Effect.sendTextMessage c.pClientSocket "<slideshow>1</slideshow>")
        myStatus := Status.showSlides } := by
    simp only [onButtonStartStopSlideShowClicked, hlen, if_false, hpanel, if_true,
      SendToAll_of_valid s _ hvalid]
  have hlive : onButtonStartStopLiveCameraClicked s =
      { s with
        trace := s.trace ++ s.connectionList.map
          (fun c => Effect.sendTextMessage c.pClientSocket "<live>1</live>")
        myStatus := Status.showCamera } := by
    simp only [onButtonStartStopLiveCameraClicked, hlen, if_false, hpanel, if_true,
      SendToAll_of_valid s _ hvalid]
  refine ⟨⟨hspot, ?_⟩, ⟨hslide, ?_⟩, ⟨hlive, ?_⟩⟩
  · rw [hspot]
    exact spotLoop_stop ⟨s.connectionList, Status.showSpots, s.sIpAddresses, _⟩
      hlen hvalid (by simp)
  · rw [hslide]
    exact slideShow_stop ⟨s.connectionList, Status.showSlides, s.sIpAddresses, _⟩
      hlen hvalid (by simp)
  · rw [hlive]
    exact liveCamera_stop ⟨s.connectionList, Status.showCamera, s.sIpAddresses, _⟩
      hlen hvalid (by simp)

/-- C19 on a registry of two valid peers: the spot loop is started. -/
theorem C19_mode_transitions_witness :
    onButtonStartStopSpotLoopClicked
        ⟨[⟨⟨1, .ipv4 167772161, true⟩⟩, ⟨⟨2, .ipv4 167772162, true⟩⟩], Status.showPanel, [], []⟩ =
      ⟨[⟨⟨1, .ipv4 167772161, true⟩⟩, ⟨⟨2, .ipv4 167772162, true⟩⟩], Status.showSpots, [],
        [Effect.sendTextMessage ⟨1, .ipv4 167772161, true⟩ "<spotloop>1</spotloop>",
          Effect.sendTextMessage ⟨2, .ipv4 167772162, true⟩ "<spotloop>1</spotloop>"]⟩ :=
  (C19_mode_transitions
    ⟨[⟨⟨1, .ipv4 167772161, true⟩⟩, ⟨⟨2, .ipv4 167772162, true⟩⟩], Status.showPanel, [], []⟩
    rfl (by decide) (by decide)).1.1

/-- C20 (refusal on empty registry).  With an empty registry, whatever the
mode, each of the three start/stop handlers only sets the mode to `showPanel`:
no socket call is made, the registry stays empty. -/
theorem C20_refusal_on_empty_registry (s : ScoreController)
    (hempty : s.connectionList = []) :
    onButtonStartStopSpotLoopClicked s = { s with myStatus := Status.showPanel } ∧
    onButtonStartStopSlideShowClicked s = { s with myStatus := Status.showPanel } ∧
    onButtonStartStopLiveCameraClicked s = { s with myStatus := Status.showPanel } ∧
    (onButtonStartStopSpotLoopClicked s).trace = s.trace ∧
    (onButtonStartStopSlideShowClicked s).trace = s.trace ∧
    (onButtonStartStopLiveCameraClicked s).trace = s.trace ∧
    (onButtonStartStopSpotLoopClicked s).connectionList = [] ∧
    (onButtonStartStopSlideShowClicked s).connectionList = [] ∧
    (onButtonStartStopLiveCameraClicked s).connectionList = [] := by
  simp [onButtonStartStopSpotLoopClicked, onButtonStartStopSlideShowClicked,
    onButtonStartStopLiveCameraClicked, hempty]

/-- C20 on an empty registry left in mode `showSlides`. -/
theorem C20_refusal_on_empty_registry_witness :
    onButtonStartStopSlideShowClicked ⟨[], Status.showSlides, [], []⟩ =
      ⟨[], Status.showPanel, [], []⟩ :=
  (C20_refusal_on_empty_registry ⟨[], Status.showSlides, [], []⟩ rfl).2.1

/-- The mode after `UpdateUI` is `showPanel` when the registry is empty. -/
theorem UpdateUI_forces_showPanel (s : ScoreController)
    (hempty : (UpdateUI s).connectionList = []) : (UpdateUI s).myStatus = Status.showPanel := by
  rw [UpdateUI_connectionList] at hempty
  simp [UpdateUI, hempty]

/-- A call of `SendToOne` keeps "empty registry implies `showPanel`". -/
theorem SendToOne_keeps_showPanel (s : ScoreController) (pClient : QWebSocket)
    (sMessage : String)
    (hinv : s.connectionList = [] → s.myStatus = Status.showPanel)
    (hempty : (SendToOne s pClient sMessage).connectionList = []) :
    (SendToOne s pClient sMessage).myStatus = Status.showPanel := by
  unfold SendToOne at hempty ⊢
  split_ifs at hempty ⊢
  · exact hinv hempty
  · exact UpdateUI_forces_showPanel _ hempty

theorem SendToAll_loop_keeps_showPanel (sMessage : String) :
    ∀ (fuel i : Nat) (s : ScoreController),
      (s.connectionList = [] → s.myStatus = Status.showPanel) →
      (SendToAll.loop sMessage fuel i s).connectionList = [] →
      (SendToAll.loop sMessage fuel i s).myStatus = Status.showPanel := by
  intro fuel
  induction fuel with
  | zero => intro i s hinv hempty; exact hinv hempty
  | succ fuel ih =>
    intro i s hinv
    rw [SendToAll.loop]
    cases hget : s.connectionList[i]? with
    | none => exact hinv
    | some c => exact ih (i + 1) _ (SendToOne_keeps_showPanel s c.pClientSocket sMessage hinv)

theorem onStartCamera_loop_keeps_showPanel (hostAddress : QHostAddress) :
    ∀ (l : List Connection) (s : ScoreController),
      (s.connectionList = [] → s.myStatus = Status.showPanel) →
      (l ≠ [] → s.connectionList ≠ []) →
      (onStartCamera.loop hostAddress l s).connectionList = [] →
      (onStartCamera.loop hostAddress l s).myStatus = Status.showPanel := by
  intro l
  induction l with
  | nil => intro s hinv _ hempty; exact hinv hempty
  | cons c rest ih =>
    intro s hinv hne
    have hs : s.connectionList ≠ [] := hne (List.cons_ne_nil _ _)
    rw [onStartCamera.loop]
    by_cases hm : c.pClientSocket.peerAddress.toIPv4Address = hostAddress.toIPv4Address
    · simp only [hm, if_true]
      exact SendToOne_keeps_showPanel _ _ _ (SendToOne_keeps_showPanel s _ _ hinv)
    · simp only [hm, if_false]
      exact ih { s with myStatus := Status.showCamera } (fun h => absurd h hs) (fun _ => hs)

/-- Every operation on the registry other than the start branch of the three
start/stop handlers keeps "empty registry implies `showPanel`": a state that
satisfies it is taken to a state that satisfies it by `onNewConnection`,
`onClientDisconnected`, `SendToOne`, `SendToAll`, `onStartCamera`,
`onStopCamera`, and by each start/stop handler invoked in a mode other than
`showPanel` or on an empty registry. -/
theorem registry_empty_forces_showPanel_elsewhere (s : ScoreController)
    (hinv : s.connectionList = [] → s.myStatus = Status.showPanel)
    (pClient : QWebSocket) (sMessage : String) (hostAddress : QHostAddress) :
    ((onNewConnection s pClient).connectionList = [] →
      (onNewConnection s pClient).myStatus = Status.showPanel) ∧
    ((onClientDisconnected s pClient).connectionList = [] →
      (onClientDisconnected s pClient).myStatus = Status.showPanel) ∧
    ((SendToOne s pClient sMessage).connectionList = [] →
      (SendToOne s pClient sMessage).myStatus = Status.showPanel) ∧
    ((SendToAll s sMessage).connectionList = [] →
      (SendToAll s sMessage).myStatus = Status.showPanel) ∧
    ((onStartCamera s hostAddress).connectionList = [] →
      (onStartCamera s hostAddress).myStatus = Status.showPanel) ∧
    (onStopCamera s).myStatus = Status.showPanel ∧
    ((s.connectionList = [] ∨ s.myStatus ≠ Status.showPanel) →
      (onButtonStartStopSpotLoopClicked s).myStatus = Status.showPanel ∧
      (onButtonStartStopSlideShowClicked s).myStatus = Status.showPanel ∧
      (onButtonStartStopLiveCameraClicked s).myStatus = Status.showPanel) := by
  refine ⟨?_, ?_, ?_, ?_, ?_, rfl, ?_⟩
  · exact UpdateUI_forces_showPanel _
  · exact UpdateUI_forces_showPanel _
  · exact SendToOne_keeps_showPanel s pClient sMessage hinv
  · exact SendToAll_loop_keeps_showPanel sMessage _ 0 s hinv
  · exact onStartCamera_loop_keeps_showPanel hostAddress _ s hinv (fun h => h)
  · intro h
    rcases h with h | h
    · simp [onButtonStartStopSpotLoopClicked, onButtonStartStopSlideShowClicked,
        onButtonStartStopLiveCameraClicked, h]
    · simp only [onButtonStartStopSpotLoopClicked, onButtonStartStopSlideShowClicked,
        onButtonStartStopLiveCameraClicked, h, if_false]
      refine ⟨?_, ?_, ?_⟩ <;> split_ifs <;> rfl

/-- C18 at the failing input: from the initial state a socket is registered;
by the time the operator starts the spot loop (or the slideshow, or the live
camera) the socket is not valid.  `SendToAll` evicts it, and the handler then
sets the mode: the registry is empty and the mode is `showSpots` (`showSlides`,
`showCamera`). -/
theorem C18_start_after_last_eviction :
    (onButtonStartStopSpotLoopClicked
        (onNewConnection initial ⟨1, .ipv4 167772161, false⟩)).connectionList = [] ∧
    (onButtonStartStopSpotLoopClicked
        (onNewConnection initial ⟨1, .ipv4 167772161, false⟩)).myStatus = Status.showSpots ∧
    (onButtonStartStopSlideShowClicked
        (onNewConnection initial ⟨1, .ipv4 167772161, false⟩)).connectionList = [] ∧
    (onButtonStartStopSlideShowClicked
        (onNewConnection initial ⟨1, .ipv4 167772161, false⟩)).myStatus = Status.showSlides ∧
    (onButtonStartStopLiveCameraClicked
        (onNewConnection initial ⟨1, .ipv4 167772161, false⟩)).connectionList = [] ∧
    (onButtonStartStopLiveCameraClicked
        (onNewConnection initial ⟨1, .ipv4 167772161, false⟩)).myStatus = Status.showCamera := by
  decide

end ScoreController

/-! ## Discovery -/

namespace ScoreController

/-- The loop of `sendAcceptConnection` builds the entries `ip,0` separated by
`;`. -/
theorem foldl_serverIP (acc : String) (rest : List String) :
    rest.foldl (fun acc ip => acc ++ (";" ++ ip ++ ",0")) acc =
      String.intercalate.go acc ";" (rest.map (fun ip => ip ++ ",0")) := by
  induction rest generalizing acc with
  | nil => rfl
  | cons b rest ih =>
    simp only [List.foldl_cons, List.map_cons, String.intercalate.go]
    rw [ih]
    simp only [String.append_assoc]

/-- C21 (discovery reply format).  For every non-empty list of bound addresses
`ip1, ..., ipk`, `sendAcceptConnection` writes exactly one datagram, to the
requester's address and port, whose text is `<serverIP>` followed by the
entries `ip,0` in bind order separated by `;` (none after the last) and by
`</serverIP>`; nothing else changes. -/
theorem C21_discovery_reply_format (s : ScoreController) (hostAddress : QHostAddress)
    (port : Nat) (hips : s.sIpAddresses ≠ []) :
    sendAcceptConnection s hostAddress port =
      some { s with
        trace := s.trace ++
          [Effect.writeDatagram hostAddress port
            (toUtf8 ("<serverIP>" ++
              ";".intercalate (s.sIpAddresses.map (fun ip => ip ++ ",0")) ++
              "</serverIP>"))] } := by
  unfold sendAcceptConnection
  cases hl : s.sIpAddresses with
  | nil => exact absurd hl hips
  | cons ip0 rest =>
    simp only [foldl_serverIP, List.map_cons, String.intercalate]

/-- C21 on the bound addresses 192.168.1.5 and 10.0.0.7. -/
theorem C21_discovery_reply_format_witness :
    sendAcceptConnection ⟨[], Status.showPanel, ["192.168.1.5", "10.0.0.7"], []⟩
        (.ipv4 3232235797) 45453 =
      some ⟨[], Status.showPanel, ["192.168.1.5", "10.0.0.7"],
        [Effect.writeDatagram (.ipv4 3232235797) 45453
          (toUtf8 "<serverIP>192.168.1.5,0;10.0.0.7,0</serverIP>")]⟩ :=
  C21_discovery_reply_format ⟨[], Status.showPanel, ["192.168.1.5", "10.0.0.7"], []⟩
    (.ipv4 3232235797) 45453 (by decide)

/-- C22 (discovery eviction).  Let `A` be the requester, the sender of the
datagram read last, and let at least one address be bound.  When the drained
buffer carries a `getServer` tag, `onProcessConnectionRequest` sends the reply
datagram to `A` and evicts the entries for `A`: afterwards the registry is the
old registry without its entries for `A`, the entries for the other addresses
being kept in order.  When the buffer carries no `getServer` tag the state is
returned unchanged: no reply, same registry. -/
theorem C22_discovery_eviction (s : ScoreController) (pending : List Datagram) :
    (s.sIpAddresses ≠ [] →
      XML_Parse (cString (onProcessConnectionRequest.drain pending
        ("", QHostAddress.other 0, 0)).1) "getServer" ≠ sNoData →
      ∃ s1, onProcessConnectionRequest s pending = some s1 ∧
        s1.connectionList = s.connectionList.filter
          (fun c => !c.isFor (onProcessConnectionRequest.drain pending
            ("", QHostAddress.other 0, 0)).2.1) ∧
        (∀ c ∈ s1.connectionList, c.isFor (onProcessConnectionRequest.drain pending
            ("", QHostAddress.other 0, 0)).2.1 = false) ∧
        s1.trace = s.trace ++
          [Effect.writeDatagram
            (onProcessConnectionRequest.drain pending ("", QHostAddress.other 0, 0)).2.1
            (onProcessConnectionRequest.drain pending ("", QHostAddress.other 0, 0)).2.2
            (toUtf8 ("<serverIP>" ++
              ";".intercalate (s.sIpAddresses.map (fun ip => ip ++ ",0")) ++
              "</serverIP>"))] ++
          (((s.connectionList.filter
            (fun c => c.isFor (onProcessConnectionRequest.drain pending
              ("", QHostAddress.other 0, 0)).2.1)).reverse.map
            (fun c => evict c.pClientSocket)).flatten)) ∧
    (XML_Parse (cString (onProcessConnectionRequest.drain pending
        ("", QHostAddress.other 0, 0)).1) "getServer" = sNoData →
      onProcessConnectionRequest s pending = some s) := by
  refine ⟨fun hips htag => ?_, fun hno => ?_⟩
  · obtain ⟨ip0, rest, hl⟩ : ∃ ip0 rest, s.sIpAddresses = ip0 :: rest := by
      cases h : s.sIpAddresses with
      | nil => exact absurd h hips
      | cons a l => exact ⟨a, l, rfl⟩
    have hsend : ∀ (hostAddress : QHostAddress) (port : Nat),
        sendAcceptConnection s hostAddress port =
          some { s with
            trace := s.trace ++
              [Effect.writeDatagram hostAddress port
                (toUtf8 ("<serverIP>" ++
                  ";".intercalate (s.sIpAddresses.map (fun ip => ip ++ ",0")) ++
                  "</serverIP>"))] } := by
      intro hostAddress port
      unfold sendAcceptConnection
      rw [hl]
      simp only [foldl_serverIP, List.map_cons, String.intercalate]
    have hres : onProcessConnectionRequest s pending =
        some (UpdateUI (RemoveClient
          { s with
            trace := s.trace ++
              [Effect.writeDatagram
                (onProcessConnectionRequest.drain pending ("", QHostAddress.other 0, 0)).2.1
                (onProcessConnectionRequest.drain pending ("", QHostAddress.other 0, 0)).2.2
                (toUtf8 ("<serverIP>" ++
                  ";".intercalate (s.sIpAddresses.map (fun ip => ip ++ ",0")) ++
                  "</serverIP>"))] }
          (onProcessConnectionRequest.drain pending ("", QHostAddress.other 0, 0)).2.1)) := by
      unfold onProcessConnectionRequest
      simp only [htag, ne_eq, not_false_eq_true, if_true, hsend]
    refine ⟨_, hres, ?_, ?_, ?_⟩
    · rw [UpdateUI_connectionList, RemoveClient_connectionList]
    · rw [UpdateUI_connectionList]
      exact RemoveClient_absent_after _ _
    · rw [UpdateUI_trace, RemoveClient_trace]
  · unfold onProcessConnectionRequest
    simp [hno]

/-- C22 on a registry of two peers, the first of which asks for the server
again. -/
theorem C22_discovery_eviction_witness :
    ∃ s1,
      onProcessConnectionRequest
        ⟨[⟨⟨1, .ipv4 3232235801, true⟩⟩, ⟨⟨2, .ipv4 3232235802, true⟩⟩], Status.showPanel,
          ["192.168.1.5"], []⟩
        [⟨"<getServer>panel</getServer>", .ipv4 3232235801, 45453⟩] = some s1 ∧
      s1.connectionList = [⟨⟨2, .ipv4 3232235802, true⟩⟩] :=
  have h := (C22_discovery_eviction
    ⟨[⟨⟨1, .ipv4 3232235801, true⟩⟩, ⟨⟨2, .ipv4 3232235802, true⟩⟩], Status.showPanel,
      ["192.168.1.5"], []⟩
    [⟨"<getServer>panel</getServer>", .ipv4 3232235801, 45453⟩]).1 (by decide) (by decide)
  match h with
  | ⟨s1, h1, h2, _, _⟩ => ⟨s1, h1, h2⟩

theorem prepareDiscovery_entries_spec :
    ∀ (l : List QNetworkAddressEntry) (acc : Bool × List String),
      prepareDiscovery.entries l acc =
        (acc.1 || !(l.filter (fun e => e.isIPv4 && e.bindSucceeds)).isEmpty,
         acc.2 ++ (l.filter (fun e => e.isIPv4 && e.bindSucceeds)).map (fun e => e.ip)) := by
  intro l
  induction l with
  | nil => intro acc; simp [prepareDiscovery.entries]
  | cons e rest ih =>
    intro acc
    obtain ⟨b, ips⟩ := acc
    rw [prepareDiscovery.entries]
    cases h4 : e.isIPv4 <;> cases hb : e.bindSucceeds <;> simp [h4, hb, ih]

theorem isEmpty_append_eq {α : Type} (a b : List α) :
    (a ++ b).isEmpty = (a.isEmpty && b.isEmpty) := by
  cases a <;> simp

/-- The addresses bound by `prepareDiscovery`: for every eligible interface in
order, the IPv4 entries whose `bind()` succeeded, in order. -/
theorem prepareDiscovery_interfaces_spec :
    ∀ (l : List QNetworkInterface) (acc : Bool × List String),
      prepareDiscovery.interfaces l acc =
        (acc.1 || !(((l.filter (fun i => i.isUp && i.isRunning && i.canMulticast &&
              !i.isLoopBack)).map
            (fun i => i.addressEntries.filter
              (fun e => e.isIPv4 && e.bindSucceeds))).flatten).isEmpty,
         acc.2 ++ (((l.filter (fun i => i.isUp && i.isRunning && i.canMulticast &&
              !i.isLoopBack)).map
            (fun i => i.addressEntries.filter (fun e => e.isIPv4 && e.bindSucceeds))).flatten).map
              (fun e => e.ip)) := by
  intro l
  induction l with
  | nil => intro acc; simp [prepareDiscovery.interfaces]
  | cons i rest ih =>
    intro acc
    rw [prepareDiscovery.interfaces]
    by_cases hel : (i.isUp && i.isRunning && i.canMulticast && !i.isLoopBack) = true
    · simp only [hel, if_true, ih, prepareDiscovery_entries_spec, List.filter_cons_of_pos,
        List.map_cons, List.flatten_cons, List.map_append, List.append_assoc,
        isEmpty_append_eq, Bool.not_and, Bool.or_assoc]
    · simp only [hel, if_false, ih]
      simp [List.filter_cons, hel]

/-- C23 (discovery bind result).  For every list of interfaces and every
outcome of the binds: the address list after `prepareDiscovery` is exactly the
addresses of the IPv4 entries of eligible interfaces (up, running,
multicast-capable, not loopback) whose bind succeeded, in order, failed binds
and other entries adding nothing; the result is `true` if and only if there is
such an entry, that is if and only if that list is not empty; the rest of the
state is unchanged. -/
theorem C23_discovery_bind_result (s : ScoreController)
    (interfaceList : List QNetworkInterface) :
    (prepareDiscovery s interfaceList).2.sIpAddresses =
      (((interfaceList.filter (fun i => i.isUp && i.isRunning && i.canMulticast &&
          !i.isLoopBack)).map
        (fun i => i.addressEntries.filter (fun e => e.isIPv4 && e.bindSucceeds))).flatten).map
          (fun e => e.ip) ∧
    ((prepareDiscovery s interfaceList).1 = true ↔
      ∃ i ∈ interfaceList,
        (i.isUp = true ∧ i.isRunning = true ∧ i.canMulticast = true ∧ i.isLoopBack = false) ∧
        ∃ e ∈ i.addressEntries, e.isIPv4 = true ∧ e.bindSucceeds = true) ∧
    ((prepareDiscovery s interfaceList).1 = true ↔
      (prepareDiscovery s interfaceList).2.sIpAddresses ≠ []) ∧
    (prepareDiscovery s interfaceList).2.connectionList = s.connectionList ∧
    (prepareDiscovery s interfaceList).2.myStatus = s.myStatus ∧
    (prepareDiscovery s interfaceList).2.trace = s.trace := by
  have hspec := prepareDiscovery_interfaces_spec interfaceList (false, [])
  have h1 : (prepareDiscovery s interfaceList).1 =
      !((((interfaceList.filter (fun i => i.isUp && i.isRunning && i.canMulticast &&
          !i.isLoopBack)).map
        (fun i => i.addressEntries.filter
          (fun e => e.isIPv4 && e.bindSucceeds))).flatten).isEmpty) := by
    simp [prepareDiscovery, hspec]
  have h2 : (prepareDiscovery s interfaceList).2.sIpAddresses =
      (((interfaceList.filter (fun i => i.isUp && i.isRunning && i.canMulticast &&
          !i.isLoopBack)).map
        (fun i => i.addressEntries.filter (fun e => e.isIPv4 && e.bindSucceeds))).flatten).map
          (fun e => e.ip) := by
    simp [prepareDiscovery, hspec]
  have hne : ∀ l : List QNetworkAddressEntry, ((!l.isEmpty) = true ↔ l ≠ []) := by
    intro l; cases l <;> simp
  refine ⟨h2, ?_, ?_, rfl, rfl, rfl⟩
  · rw [h1, hne]
    constructor
    · intro hnn
      obtain ⟨e, he⟩ := List.exists_mem_of_ne_nil _ hnn
      obtain ⟨l, hl, hel⟩ := List.mem_flatten.mp he
      obtain ⟨i, hi, rfl⟩ := List.mem_map.mp hl
      have hi2 := List.mem_filter.mp hi
      have he2 := List.mem_filter.mp hel
      refine ⟨i, hi2.1, ?_, e, he2.1, ?_⟩
      · simpa [and_assoc] using hi2.2
      · simpa using he2.2
    · rintro ⟨i, hi, ⟨h1, h2, h3, h4⟩, e, he, h5, h6⟩
      intro hnil
      have hmem : e ∈ (((interfaceList.filter (fun i => i.isUp && i.isRunning &&
          i.canMulticast && !i.isLoopBack)).map
          (fun i => i.addressEntries.filter (fun e => e.isIPv4 && e.bindSucceeds))).flatten) := by
        apply List.mem_flatten.mpr
        refine ⟨i.addressEntries.filter (fun e => e.isIPv4 && e.bindSucceeds), ?_, ?_⟩
        · exact List.mem_map.mpr ⟨i, List.mem_filter.mpr ⟨hi, by simp [h1, h2, h3, h4]⟩, rfl⟩
        · exact List.mem_filter.mpr ⟨he, by simp [h5, h6]⟩
      rw [hnil] at hmem
      cases hmem
  · rw [h1, h2, hne]
    simp only [ne_eq, List.map_eq_nil_iff]

end ScoreController

/-! ## The catalog: setDir, and requests that do not consult it -/

namespace FileServer

/-- The result of `setDir` is `true` in every case. -/
theorem setDir_result (dirs : String → QDir) (srv : FileServer) (sDirectory sExtensions : String) :
    (setDir dirs srv sDirectory sExtensions).1 = true := by
  unfold setDir
  dsimp only
  split_ifs <;> rfl

/-- When the directory does not exist, `setDir` leaves the catalog as it
was. -/
theorem setDir_of_missing (dirs : String → QDir) (srv : FileServer)
    (sDirectory sExtensions : String)
    (hmiss : (dirs (setDir dirs srv sDirectory sExtensions).2.sFileDir).dirExists = false) :
    (setDir dirs srv sDirectory sExtensions).2.fileList = srv.fileList := by
  unfold setDir at hmiss ⊢
  by_cases hs : "/".data.isSuffixOf sDirectory.data = true
  · simp only [hs, if_true] at hmiss ⊢
    by_cases hd : (dirs sDirectory).dirExists = true
    · simp [hd] at hmiss
    · simp [hd]
  · simp only [hs, if_false] at hmiss ⊢
    by_cases hd : (dirs (sDirectory ++ "/")).dirExists = true
    · simp [hd] at hmiss
    · simp [hd]

/-- C24, as amended (setDir on a missing directory).  For every path,
extension filter and prior state `setDir` returns `true`; when the directory
does not exist and the catalog was empty before (as on a newly built
`FileServer`), the catalog afterwards is empty, and a following
`send_file_list` request from a valid socket is answered with
`<file_list>0/file_list>`. -/
theorem C24_setDir_missing_directory (dirs : String → QDir) (srv : FileServer)
    (sDirectory sExtensions : String) :
    (setDir dirs srv sDirectory sExtensions).1 = true ∧
    ((dirs (setDir dirs srv sDirectory sExtensions).2.sFileDir).dirExists = false →
      srv.fileList = [] →
      (setDir dirs srv sDirectory sExtensions).2.fileList = [] ∧
      ∀ (fs : FileSystem) (pClient : QWebSocket) (sMessage : String),
        XML_Parse sMessage "get" = sNoData →
        XML_Parse sMessage "send_file_list" ≠ sNoData →
        pClient.isValid = true →
        (onProcessTextMessage fs (setDir dirs srv sDirectory sExtensions).2 pClient sMessage).trace =
          (setDir dirs srv sDirectory sExtensions).2.trace ++
            [Effect.sendTextMessage pClient "<file_list>0/file_list>"]) := by
  refine ⟨setDir_result dirs srv sDirectory sExtensions, fun hmiss hempty => ?_⟩
  have hlist : (setDir dirs srv sDirectory sExtensions).2.fileList = [] := by
    rw [setDir_of_missing dirs srv sDirectory sExtensions hmiss, hempty]
  refine ⟨hlist, fun fs pClient sMessage hget htag hvalid => ?_⟩
  rw [onProcessTextMessage_of_no_get fs _ pClient sMessage hget]
  unfold onProcessTextMessage.sendFileList
  simp [htag, hlist, hvalid, SendToOne]

/-- C24 as amended, on a newly built server and a directory that does not
exist. -/
theorem C24_setDir_missing_directory_witness :
    (setDir (fun _ => ⟨false, fun _ => []⟩) ⟨"", [], [], []⟩ "/no/such/dir" "*.jpg *.png").2.fileList
      = [] :=
  ((C24_setDir_missing_directory (fun _ => ⟨false, fun _ => []⟩) ⟨"", [], [], []⟩
    "/no/such/dir" "*.jpg *.png").2 rfl rfl).1

/-- C24 as stated fails: on a server whose catalog holds `a.jpg`, `setDir` to a
directory that does not exist returns `true`, sets the directory and leaves
`a.jpg` in the catalog. -/
theorem C24_setDir_missing_directory_counterexample :
    setDir (fun _ => ⟨false, fun _ => []⟩) ⟨"/slides/", [⟨"a.jpg", 100⟩], [], []⟩
        "/no/such/dir" "*.jpg" =
      (true, ⟨"/no/such/dir/", [⟨"a.jpg", 100⟩], [], []⟩) := by
  decide

/-- Outside the fall-through of the missing-file branch the catalog list is
not read by a `get` request.  Two states that differ only
in the catalog list answer the same `get` request in the same way (the state
after the request is the same, the catalog list apart) whenever the named file
exists, and also when the `missingFile` reply text carries no `send_file_list`
tag.  In particular a file that exists under the directory is served whether or
not it is in the catalog. -/
theorem get_ignores_catalog_of_plain_reply (fs : FileSystem) (srv : FileServer)
    (fileList2 : List QFileInfo) (pClient : QWebSocket) (sMessage : String)
    (hget : XML_Parse sMessage "get" ≠ sNoData) :
    ((fs (srv.sFileDir ++ (split (XML_Parse sMessage "get") ',').getD 0 "")).isSome = true →
      onProcessTextMessage fs { srv with fileList := fileList2 } pClient sMessage =
        { onProcessTextMessage fs srv pClient sMessage with fileList := fileList2 }) ∧
    (XML_Parse ("<missingFile>" ++ XML_Parse sMessage "get" ++ "</missingFile>")
        "send_file_list" = sNoData →
      onProcessTextMessage fs { srv with fileList := fileList2 } pClient sMessage =
        { onProcessTextMessage fs srv pClient sMessage with fileList := fileList2 }) := by
  constructor
  · intro hex
    obtain ⟨file, hfile⟩ := Option.isSome_iff_exists.mp hex
    unfold onProcessTextMessage
    simp only [hget, ne_eq, not_false_eq_true, if_true, hfile]
    split_ifs <;> rfl
  · intro hno
    unfold onProcessTextMessage
    simp only [hget, ne_eq, not_false_eq_true, if_true]
    by_cases h3 : (split (XML_Parse sMessage "get") ',').length < 3
    · simp only [h3, if_true]
    · simp only [h3, if_false]
      cases hfile : fs (srv.sFileDir ++ (split (XML_Parse sMessage "get") ',').getD 0 "") with
      | some file =>
        simp only
        split_ifs <;> rfl
      | none =>
        simp only [onProcessTextMessage.sendFileList, hno, ne_eq, not_true_eq_false, if_false]
        split_ifs <;> rfl

/-- A file outside the catalog is served: `a.jpg` exists under the directory
and is served by a server whose catalog is empty as by one whose catalog lists
it. -/
theorem unlisted_file_served :
    onProcessTextMessage
        (fun p => if p = "/slides/a.jpg" then some ⟨List.replicate 100 65, true⟩ else none)
        ⟨"/slides/", [], [], []⟩ ⟨1, .ipv4 167772161, true⟩ "<get>a.jpg,0,10</get>" =
      { onProcessTextMessage
          (fun p => if p = "/slides/a.jpg" then some ⟨List.replicate 100 65, true⟩ else none)
          ⟨"/slides/", [⟨"a.jpg", 100⟩], [], []⟩ ⟨1, .ipv4 167772161, true⟩
          "<get>a.jpg,0,10</get>" with fileList := [] } :=
  (get_ignores_catalog_of_plain_reply
    (fun p => if p = "/slides/a.jpg" then some ⟨List.replicate 100 65, true⟩ else none)
    ⟨"/slides/", [⟨"a.jpg", 100⟩], [], []⟩ [] ⟨1, .ipv4 167772161, true⟩
    "<get>a.jpg,0,10</get>" (by decide)).1 (by decide)

/-- C25 at the failing input (get and the catalog list): the request
`<get><send_file_list>1</send_file_list>,0,1</get>` names a file that does not
exist; the missing-file branch does not return after its `missingFile` reply,
the catalog is sent next, and two servers with the same directory, the same
files on disk and the catalogs `a.jpg` and `b.jpg` answer differently. -/
theorem C25_get_reply_depends_on_catalog :
    (onProcessTextMessage (fun _ => none) ⟨"/slides/", [⟨"a.jpg", 100⟩], [], []⟩
        ⟨1, .ipv4 167772161, true⟩
        "<get><send_file_list>1</send_file_list>,0,1</get>").trace =
      [Effect.sendTextMessage ⟨1, .ipv4 167772161, true⟩
        "<missingFile><send_file_list>1</send_file_list>,0,1</missingFile>",
       Effect.sendTextMessage ⟨1, .ipv4 167772161, true⟩
        "<file_list>a.jpg;100</file_list>"] ∧
    (onProcessTextMessage (fun _ => none) ⟨"/slides/", [⟨"b.jpg", 7⟩], [], []⟩
        ⟨1, .ipv4 167772161, true⟩
        "<get><send_file_list>1</send_file_list>,0,1</get>").trace =
      [Effect.sendTextMessage ⟨1, .ipv4 167772161, true⟩
        "<missingFile><send_file_list>1</send_file_list>,0,1</missingFile>",
       Effect.sendTextMessage ⟨1, .ipv4 167772161, true⟩
        "<file_list>b.jpg;7</file_list>"] := by
  decide

/-- C26, as amended (duplicate peer, both invalid).  When an invalid socket
arrives from the address of an invalid entry `e` of the connection set,
`onNewConnection` disconnects, closes and deletes the new socket and returns
without admitting it; the connection set, `e` included, is left as it was. -/
theorem C26_duplicate_both_invalid (srv : FileServer) (pClient : QWebSocket)
    (l1 l2 : List QWebSocket) (e : QWebSocket)
    (hconn : srv.connections = l1 ++ e :: l2)
    (haddr : e.peerAddress = pClient.peerAddress)
    (hafter : ∀ x ∈ l2, x.peerAddress ≠ pClient.peerAddress)
    (_hold : e.isValid = false)
    (hnew : pClient.isValid = false) :
    onNewConnection srv pClient =
      { srv with
        trace := srv.trace ++
          [Effect.disconnect pClient, Effect.close pClient, Effect.delete pClient] } := by
  rw [onNewConnection_of_duplicate srv pClient l1 l2 e hconn haddr hafter]
  simp [hnew]

/-- C26 as amended, on a set of two peers, the first of which is invalid and
sends a second, invalid connection. -/
theorem C26_duplicate_both_invalid_witness :
    onNewConnection
        ⟨"/slides/", [], [⟨1, .ipv4 167772161, false⟩, ⟨2, .ipv4 167772162, true⟩], []⟩
        ⟨3, .ipv4 167772161, false⟩ =
      ⟨"/slides/", [], [⟨1, .ipv4 167772161, false⟩, ⟨2, .ipv4 167772162, true⟩],
        [Effect.disconnect ⟨3, .ipv4 167772161, false⟩, Effect.close ⟨3, .ipv4 167772161, false⟩,
          Effect.delete ⟨3, .ipv4 167772161, false⟩]⟩ :=
  C26_duplicate_both_invalid
    ⟨"/slides/", [], [⟨1, .ipv4 167772161, false⟩, ⟨2, .ipv4 167772162, true⟩], []⟩
    ⟨3, .ipv4 167772161, false⟩
    [] [⟨2, .ipv4 167772162, true⟩] ⟨1, .ipv4 167772161, false⟩
    rfl rfl (by decide) rfl rfl

/-- C26 as stated fails: with the invalid entry 1 in the set and the invalid
socket 3 arriving from the same address, socket 3 is closed and deleted and is
not admitted to the set. -/
theorem C26_duplicate_both_invalid_counterexample :
    (onNewConnection ⟨"/slides/", [], [⟨1, .ipv4 167772161, false⟩], []⟩
        ⟨3, .ipv4 167772161, false⟩).trace =
      [Effect.disconnect ⟨3, .ipv4 167772161, false⟩, Effect.close ⟨3, .ipv4 167772161, false⟩,
        Effect.delete ⟨3, .ipv4 167772161, false⟩] ∧
    (onNewConnection ⟨"/slides/", [], [⟨1, .ipv4 167772161, false⟩], []⟩
        ⟨3, .ipv4 167772161, false⟩).connections = [⟨1, .ipv4 167772161, false⟩] := by
  decide

end FileServer

/-! ## Reading integers and values from requests -/

theorem digitChar_facts : ∀ k : Fin 10,
    (Nat.digitChar k.val).isDigit = true ∧ (Nat.digitChar k.val).toNat - 48 = k.val := by
  decide

theorem isSpace_of_isDigit (c : Char) (h : c.isDigit = true) : isSpace c = false := by
  have h48 : 48 ≤ c.toNat := by
    simp only [Char.isDigit, Bool.and_eq_true, decide_eq_true_eq] at h
    exact h.1
  have hne : c ≠ ' ' := by
    intro heq
    rw [heq] at h48
    revert h48
    decide
  simp only [isSpace, Bool.or_eq_false_iff, decide_eq_false_iff_not]
  refine ⟨⟨⟨⟨⟨hne, ?_⟩, ?_⟩, ?_⟩, ?_⟩, ?_⟩ <;> omega

theorem not_sign_of_isDigit (c : Char) (h : c.isDigit = true) : c ≠ '-' ∧ c ≠ '+' := by
  have h48 : 48 ≤ c.toNat := by
    simp only [Char.isDigit, Bool.and_eq_true, decide_eq_true_eq] at h
    exact h.1
  constructor <;> (intro heq; rw [heq] at h48; revert h48; decide)

/-- The decimal digits printed for `n`, put in front of `ds`: not empty, all
digits, of value `n`. -/
theorem toDigitsCore_spec : ∀ (fuel n : Nat) (ds : List Char), n < fuel →
    ∃ pre, Nat.toDigitsCore 10 fuel n ds = pre ++ ds ∧ pre ≠ [] ∧
      (∀ c ∈ pre, c.isDigit = true) ∧
      pre.foldl (fun acc c => 10 * acc + (c.toNat - 48)) 0 = n := by
  intro fuel
  induction fuel with
  | zero => intro n ds h; omega
  | succ fuel ih =>
    intro n ds hlt
    have hd := digitChar_facts ⟨n % 10, Nat.mod_lt _ (by decide)⟩
    simp only at hd
    rw [Nat.toDigitsCore]
    by_cases h0 : n / 10 = 0
    · simp only [h0, if_true]
      refine ⟨[Nat.digitChar (n % 10)], rfl, by simp, ?_, ?_⟩
      · intro c hc
        rw [List.mem_singleton.mp hc]
        exact hd.1
      · simp only [List.foldl_cons, List.foldl_nil, hd.2]
        omega
    · simp only [h0, if_false]
      obtain ⟨pre, hpre, hne, hall, hval⟩ :=
        ih (n / 10) (Nat.digitChar (n % 10) :: ds) (by omega)
      refine ⟨pre ++ [Nat.digitChar (n % 10)], ?_, by simp, ?_, ?_⟩
      · rw [hpre]; simp
      · intro c hc
        rcases List.mem_append.mp hc with h | h
        · exact hall c h
        · rw [List.mem_singleton.mp h]; exact hd.1
      · rw [List.foldl_append, hval]
        simp only [List.foldl_cons, List.foldl_nil, hd.2]
        omega

theorem repr_spec (n : Nat) :
    ∃ pre, (toString n).data = pre ∧ pre ≠ [] ∧ (∀ c ∈ pre, c.isDigit = true) ∧
      pre.foldl (fun acc c => 10 * acc + (c.toNat - 48)) 0 = n := by
  obtain ⟨pre, hpre, hne, hall, hval⟩ := toDigitsCore_spec (n + 1) n [] (by omega)
  refine ⟨pre, ?_, hne, hall, hval⟩
  show (Nat.repr n).data = pre
  simp [Nat.repr, Nat.toDigits, hpre, List.asString]

theorem dropWhile_of_none {α : Type} (p : α → Bool) :
    ∀ l : List α, (∀ c ∈ l, p c = false) → l.dropWhile p = l := by
  intro l h
  cases l with
  | nil => rfl
  | cons a l => simp [List.dropWhile, h a (List.mem_cons_self _ _)]

theorem mem_dropWhile_of_not {α : Type} (p : α → Bool) (c : α) (hc : p c = false) :
    ∀ l : List α, c ∈ l → c ∈ l.dropWhile p := by
  intro l
  induction l with
  | nil => intro h; cases h
  | cons a l ih =>
    intro h
    rw [List.dropWhile]
    cases hp : p a with
    | true =>
      simp only
      rcases List.mem_cons.mp h with rfl | h
      · rw [hc] at hp; cases hp
      · exact ih h
    | false => simpa using h

theorem parseDigits_of_digits (pre : List Char) (hne : pre ≠ [])
    (hall : ∀ c ∈ pre, c.isDigit = true) :
    parseDigits pre = some (pre.foldl (fun acc c => 10 * acc + (c.toNat - 48)) 0) := by
  have h : pre.all Char.isDigit = true := List.all_eq_true.mpr hall
  simp [parseDigits, hne, h]

theorem parseDigits_of_non_digit (cs : List Char) (c : Char) (hc : c ∈ cs)
    (hnd : c.isDigit = false) : parseDigits cs = none := by
  have h : ¬ (cs.all Char.isDigit = true) := by
    intro hall
    have := List.all_eq_true.mp hall c hc
    rw [hnd] at this
    cases this
  simp [parseDigits, h]

/-- A run of digits is read as its value when that is below `2^31`, as 0
otherwise. -/
theorem toInt_of_digits (pre : List Char) (hne : pre ≠ [])
    (hall : ∀ c ∈ pre, c.isDigit = true) :
    toInt (String.mk pre) =
      if pre.foldl (fun acc c => 10 * acc + (c.toNat - 48)) 0 < 2 ^ 31
      then ((pre.foldl (fun acc c => 10 * acc + (c.toNat - 48)) 0 : Nat) : Int) else 0 := by
  have hsp : ∀ c ∈ pre, isSpace c = false := fun c hc => isSpace_of_isDigit c (hall c hc)
  have htrim : ((pre.dropWhile isSpace).reverse.dropWhile isSpace).reverse = pre := by
    rw [dropWhile_of_none isSpace pre hsp,
      dropWhile_of_none isSpace pre.reverse (fun c hc => hsp c (List.mem_reverse.mp hc)),
      List.reverse_reverse]
  obtain ⟨c0, rest, rfl⟩ := List.exists_cons_of_ne_nil hne
  have hc0 := not_sign_of_isDigit c0 (hall c0 (List.mem_cons_self _ _))
  unfold toInt
  simp only [htrim]
  split
  · rename_i ds heq
    exact absurd (List.cons.inj heq).1 hc0.1
  · rename_i ds heq
    exact absurd (List.cons.inj heq).1 hc0.2
  · rw [parseDigits_of_digits _ hne hall]

/-- A minus sign followed by a run of digits is read as the negated value when
that is not below `-2^31`, as 0 otherwise. -/
theorem toInt_of_minus_digits (pre : List Char) (hne : pre ≠ [])
    (hall : ∀ c ∈ pre, c.isDigit = true) :
    toInt (String.mk ('-' :: pre)) =
      if pre.foldl (fun acc c => 10 * acc + (c.toNat - 48)) 0 ≤ 2 ^ 31
      then - ((pre.foldl (fun acc c => 10 * acc + (c.toNat - 48)) 0 : Nat) : Int) else 0 := by
  have hsp : ∀ c ∈ '-' :: pre, isSpace c = false := by
    intro c hc
    rcases List.mem_cons.mp hc with rfl | h
    · decide
    · exact isSpace_of_isDigit c (hall c h)
  have htrim : ((('-' :: pre).dropWhile isSpace).reverse.dropWhile isSpace).reverse =
      '-' :: pre := by
    rw [dropWhile_of_none isSpace _ hsp,
      dropWhile_of_none isSpace ('-' :: pre).reverse (fun c hc => hsp c (List.mem_reverse.mp hc)),
      List.reverse_reverse]
  unfold toInt
  simp only [htrim, parseDigits_of_digits _ hne hall]

/-- What `toInt` reads from the decimal text of an integer: the integer itself
when it fits a signed 32-bit `int`, 0 otherwise. -/
theorem toInt_toString (v : Int) :
    toInt (toString v) = if - 2 ^ 31 ≤ v ∧ v < 2 ^ 31 then v else 0 := by
  cases v with
  | ofNat m =>
    obtain ⟨pre, hpre, hne, hall, hval⟩ := repr_spec m
    have hs : toString (Int.ofNat m) = String.mk pre := by
      show toString m = String.mk pre
      rw [← hpre]
    rw [hs, toInt_of_digits pre hne hall, hval]
    by_cases h : m < 2 ^ 31
    · have h2 : (- 2 ^ 31 ≤ Int.ofNat m ∧ Int.ofNat m < 2 ^ 31) := by
        constructor
        · have : (0 : Int) ≤ Int.ofNat m := Int.ofNat_nonneg m
          omega
        · have : ((m : Nat) : Int) < 2 ^ 31 := by exact_mod_cast h
          exact this
      simp only [h, h2, and_self, if_true]
      rfl
    · have h2 : ¬ (- 2 ^ 31 ≤ Int.ofNat m ∧ Int.ofNat m < 2 ^ 31) := by
        intro hh
        have : ((m : Nat) : Int) < 2 ^ 31 := hh.2
        exact h (by exact_mod_cast this)
      simp only [h, h2, if_false]
  | negSucc m =>
    obtain ⟨pre, hpre, hne, hall, hval⟩ := repr_spec (m + 1)
    have hs : toString (Int.negSucc m) = String.mk ('-' :: pre) := by
      show "-" ++ toString (m + 1) = String.mk ('-' :: pre)
      rw [← hpre]
      rfl
    rw [hs, toInt_of_minus_digits pre hne hall, hval]
    have hneg : Int.negSucc m = - ((m + 1 : Nat) : Int) := Int.negSucc_eq m
    by_cases h : m + 1 ≤ 2 ^ 31
    · have h2 : (- 2 ^ 31 ≤ Int.negSucc m ∧ Int.negSucc m < 2 ^ 31) := by
        rw [hneg]
        have : ((m + 1 : Nat) : Int) ≤ 2 ^ 31 := by exact_mod_cast h
        constructor <;> omega
      simp only [h, h2, and_self, if_true]
      rw [hneg]
    · have h2 : ¬ (- 2 ^ 31 ≤ Int.negSucc m ∧ Int.negSucc m < 2 ^ 31) := by
        intro hh
        rw [hneg] at hh
        have : ((m + 1 : Nat) : Int) ≤ 2 ^ 31 := by omega
        exact h (by exact_mod_cast this)
      simp only [h, h2, if_false]

/-- A text holding a character that is neither a digit, a sign nor white space
is read as 0. -/
theorem toInt_of_non_numeric (s : String) (c : Char) (hc : c ∈ s.data)
    (hnd : c.isDigit = false) (hminus : c ≠ '-') (hplus : c ≠ '+')
    (hsp : isSpace c = false) : toInt s = 0 := by
  have hmem : c ∈ ((s.data.dropWhile isSpace).reverse.dropWhile isSpace).reverse := by
    apply List.mem_reverse.mpr
    apply mem_dropWhile_of_not isSpace c hsp
    apply List.mem_reverse.mpr
    exact mem_dropWhile_of_not isSpace c hsp _ hc
  unfold toInt
  generalize ((s.data.dropWhile isSpace).reverse.dropWhile isSpace).reverse = cs at hmem
  simp only
  split
  · rename_i ds
    have : c ∈ ds := by
      rcases List.mem_cons.mp hmem with h | h
      · exact absurd h hminus
      · exact h
    rw [parseDigits_of_non_digit ds c this hnd]
  · rename_i ds
    have : c ∈ ds := by
      rcases List.mem_cons.mp hmem with h | h
      · exact absurd h hplus
      · exact h
    rw [parseDigits_of_non_digit ds c this hnd]
  · rw [parseDigits_of_non_digit cs c hmem hnd]

theorem dropWhile_of_all {α : Type} (p : α → Bool) :
    ∀ l : List α, (∀ c ∈ l, p c = true) → l.dropWhile p = [] := by
  intro l
  induction l with
  | nil => intro _; rfl
  | cons a l ih =>
    intro h
    rw [List.dropWhile, h a (List.mem_cons_self _ _)]
    exact ih (fun c hc => h c (List.mem_cons_of_mem _ hc))

/-- An empty or blank text is read as 0. -/
theorem toInt_of_blank (s : String) (h : ∀ c ∈ s.data, isSpace c = true) : toInt s = 0 := by
  unfold toInt
  rw [dropWhile_of_all isSpace s.data h]
  rfl

namespace FileServer

/-- The first chunk: a request whose start field is read as 0, on an existing
readable file, is answered with the preamble followed by the bytes read from
offset 0. -/
theorem first_chunk_sent (fs : FileSystem) (srv : FileServer) (pClient : QWebSocket)
    (sMessage sFileName sStart sLength : String) (more : List String) (file : QFile) (L : Nat)
    (hargs : split (XML_Parse sMessage "get") ',' = sFileName :: sStart :: sLength :: more)
    (hstart : toInt sStart = 0)
    (hlen : toInt sLength = (L : Int))
    (hL : 1 ≤ L)
    (hfile : fs (srv.sFileDir ++ sFileName) = some file)
    (hopen : file.canOpen = true)
    (hsize : 0 < file.content.length)
    (hfit : (toLocal8Bit sFileName).length + 1 +
      (toLocal8Bit (toString file.content.length)).length ≤ 1024)
    (hvalid : pClient.isValid = true) :
    onProcessTextMessage fs srv pClient sMessage =
      { srv with
        trace := srv.trace ++
          [Effect.sendBinaryMessage pClient
            (preamble sFileName file.content.length ++
              file.content.take (min L file.content.length))] } := by
  have hget := ne_sNoData_of_fields _ _ _ _ _ hargs
  have hpre : (preamble sFileName file.content.length).length = 1024 := by
    rw [preamble_layout]
    simp only [List.length_append, List.length_replicate, List.length_cons, List.length_nil]
    omega
  have hread : readAt file 0 (L : Int) = file.content.take (min L file.content.length) := by
    simp [readAt, List.take_eq_take]
  have hreadlen :
      (file.content.take (min L file.content.length)).length = min L file.content.length := by
    simp
  unfold onProcessTextMessage
  simp only [hget, ne_eq, not_false_eq_true, if_true, hargs, List.length_cons,
    List.getD_cons_zero, List.getD_cons_succ, hstart, hlen, hfile, hopen, hvalid]
  have h3 : ¬ (more.length + 1 + 1 + 1 < 3) := by omega
  have hsz : ¬ ((file.content.length : Int) ≤ 0) := by omega
  simp only [h3, hsz, if_false, le_refl, if_true, hread]
  have hne : ¬ ((preamble sFileName file.content.length ++
      file.content.take (min L file.content.length)).length = 1024) := by
    rw [List.length_append, hpre, hreadlen]
    omega
  simp only [hne, if_false]

/-- Two `get` requests for the same existing file whose start fields and
length fields are read as the same values are handled in the same way. -/
theorem same_values_same_handling (fs : FileSystem) (srv : FileServer) (pClient : QWebSocket)
    (sMessage1 sMessage2 sFileName sStart1 sStart2 sLength1 sLength2 : String)
    (more1 more2 : List String) (file : QFile)
    (hargs1 : split (XML_Parse sMessage1 "get") ',' = sFileName :: sStart1 :: sLength1 :: more1)
    (hargs2 : split (XML_Parse sMessage2 "get") ',' = sFileName :: sStart2 :: sLength2 :: more2)
    (hstart : toInt sStart1 = toInt sStart2)
    (hlen : toInt sLength1 = toInt sLength2)
    (hfile : fs (srv.sFileDir ++ sFileName) = some file) :
    onProcessTextMessage fs srv pClient sMessage1 =
      onProcessTextMessage fs srv pClient sMessage2 := by
  have hget1 := ne_sNoData_of_fields _ _ _ _ _ hargs1
  have hget2 := ne_sNoData_of_fields _ _ _ _ _ hargs2
  have h31 : ¬ (more1.length + 1 + 1 + 1 < 3) := by omega
  have h32 : ¬ (more2.length + 1 + 1 + 1 < 3) := by omega
  unfold onProcessTextMessage
  simp only [hget1, hget2, ne_eq, not_false_eq_true, if_true, hargs1, hargs2, List.length_cons,
    List.getD_cons_zero, List.getD_cons_succ, hstart, hlen, hfile, h31, h32, if_false]

/-- C28 (32-bit parsing of offsets).  The start and length fields of a `get`
request are read by `toInt`: the decimal text of an integer gives that integer
when it lies in `[-2^31, 2^31-1]` and 0 otherwise.  For an existing file, a
start field that is the decimal text of an integer outside that range, or holds
a character that is neither digit, sign nor white space, or is blank, is read
as 0, and the request is handled exactly like the same request with the start
field `0`; when moreover the file is readable and not empty, the length field
is read as `L ≥ 1`, name and size fit the preamble and the socket is valid, the
reply is the preamble followed by the first `min L n` bytes of the file. -/
theorem C28_offsets_parsed_as_int32 (fs : FileSystem) (srv : FileServer) (pClient : QWebSocket)
    (sMessage sFileName sStart sLength : String) (more : List String) (file : QFile)
    (hargs : split (XML_Parse sMessage "get") ',' = sFileName :: sStart :: sLength :: more)
    (hfile : fs (srv.sFileDir ++ sFileName) = some file)
    (hbad : (∃ v : Int, sStart = toString v ∧ (v < - 2 ^ 31 ∨ 2 ^ 31 ≤ v)) ∨
      (∃ c ∈ sStart.data, c.isDigit = false ∧ c ≠ '-' ∧ c ≠ '+' ∧ isSpace c = false) ∨
      (∀ c ∈ sStart.data, isSpace c = true)) :
    (∀ v : Int, toInt (toString v) = if - 2 ^ 31 ≤ v ∧ v < 2 ^ 31 then v else 0) ∧
    toInt sStart = 0 ∧
    (∀ sMessage0 : String,
      split (XML_Parse sMessage0 "get") ',' = sFileName :: "0" :: sLength :: more →
      onProcessTextMessage fs srv pClient sMessage =
        onProcessTextMessage fs srv pClient sMessage0) ∧
    (∀ L : Nat, toInt sLength = (L : Int) → 1 ≤ L → file.canOpen = true →
      0 < file.content.length →
      (toLocal8Bit sFileName).length + 1 +
        (toLocal8Bit (toString file.content.length)).length ≤ 1024 →
      pClient.isValid = true →
      onProcessTextMessage fs srv pClient sMessage =
        { srv with
          trace := srv.trace ++
            [Effect.sendBinaryMessage pClient
              (toLocal8Bit sFileName ++ [44] ++ toLocal8Bit (toString file.content.length) ++
                List.replicate
                  (1024 - ((toLocal8Bit sFileName).length + 1 +
                    (toLocal8Bit (toString file.content.length)).length)) 0 ++
                file.content.take (min L file.content.length))] }) := by
  have hzero : toInt sStart = 0 := by
    rcases hbad with ⟨v, rfl, hv⟩ | ⟨c, hc, hnd, hm, hp, hs⟩ | hblank
    · rw [toInt_toString]
      have : ¬ (- 2 ^ 31 ≤ v ∧ v < 2 ^ 31) := by omega
      simp only [this, if_false]
    · exact toInt_of_non_numeric sStart c hc hnd hm hp hs
    · exact toInt_of_blank sStart hblank
  refine ⟨toInt_toString, hzero, fun sMessage0 hargs0 => ?_,
    fun L hlen hL hopen hsize hfit hvalid => ?_⟩
  · exact same_values_same_handling fs srv pClient sMessage sMessage0 sFileName sStart "0"
      sLength sLength more more file hargs hargs0 (by rw [hzero]; decide) rfl hfile
  · rw [first_chunk_sent fs srv pClient sMessage sFileName sStart sLength more file L hargs hzero
      hlen hL hfile hopen hsize hfit hvalid, preamble_layout]

/-- C28 on `a.jpg` of 100 bytes and the start field `3000000000`: the first 10
bytes are sent after the preamble. -/
theorem C28_offsets_parsed_as_int32_witness :
    onProcessTextMessage
        (fun p => if p = "/slides/a.jpg" then some ⟨List.replicate 100 65, true⟩ else none)
        ⟨"/slides/", [⟨"a.jpg", 100⟩], [], []⟩
        ⟨1, .ipv4 167772161, true⟩ "<get>a.jpg,3000000000,10</get>" =
      ⟨"/slides/", [⟨"a.jpg", 100⟩], [],
        [Effect.sendBinaryMessage ⟨1, .ipv4 167772161, true⟩
          ([97, 46, 106, 112, 103, 44, 49, 48, 48] ++ List.replicate 1015 0 ++
            List.replicate 10 65)]⟩ :=
  (C28_offsets_parsed_as_int32
    (fun p => if p = "/slides/a.jpg" then some ⟨List.replicate 100 65, true⟩ else none)
    ⟨"/slides/", [⟨"a.jpg", 100⟩], [], []⟩
    ⟨1, .ipv4 167772161, true⟩ "<get>a.jpg,3000000000,10</get>" "a.jpg" "3000000000" "10" []
    ⟨List.replicate 100 65, true⟩
    (by decide) rfl (Or.inl ⟨3000000000, by decide, by decide⟩)).2.2.2
    10 (by decide) (by decide) rfl (by decide) (by decide) rfl

end FileServer

namespace ScoreController

/-- With the dialog present, a `pan_tilt` payload with fewer than two
non-empty values makes the slot read `values.at(i)` outside the list; with two
or more the first two are forwarded. -/
theorem panTilt_of_values (sMessage : String)
    (htag : XML_Parse sMessage "pan_tilt" ≠ sNoData) :
    (((split (XML_Parse sMessage "pan_tilt") ',').filter (fun v => v ≠ "")).length < 2 →
      onProcessTextMessage.panTilt true sMessage = PanTilt.indexOutOfRange) ∧
    (∀ v0 v1 rest,
      (split (XML_Parse sMessage "pan_tilt") ',').filter (fun v => v ≠ "") = v0 :: v1 :: rest →
      onProcessTextMessage.panTilt true sMessage =
        PanTilt.remotePanTiltReceived (toInt v0) (toInt v1)) := by
  constructor
  · intro hlt
    unfold onProcessTextMessage.panTilt
    simp only [htag, ne_eq, not_false_eq_true, if_true]
    generalize (split (XML_Parse sMessage "pan_tilt") ',').filter (fun v => v ≠ "") = values
      at hlt
    match values, hlt with
    | [], _ => rfl
    | [_], _ => rfl
    | _ :: _ :: _, h => simp at h; omega
  · intro v0 v1 rest hvals
    unfold onProcessTextMessage.panTilt
    simp only [htag, ne_eq, not_false_eq_true, if_true, hvals, List.getElem?_cons_zero,
      List.getElem?_cons_succ]

/-- C27 at the failing input: with the dialog present, the message
`<pan_tilt>5</pan_tilt>` gives the single value `5` and `values.at(1)` is read
outside the list; so does a payload of separators only. -/
theorem C27_pan_tilt_index_out_of_range :
    onProcessTextMessage.panTilt true "<pan_tilt>5</pan_tilt>" = PanTilt.indexOutOfRange ∧
    onProcessTextMessage.panTilt true "<pan_tilt>,,</pan_tilt>" = PanTilt.indexOutOfRange ∧
    onProcessTextMessage.panTilt true "<pan_tilt>5,7</pan_tilt>" =
      PanTilt.remotePanTiltReceived 5 7 := by
  decide

end ScoreController

end VolleyController
